import Mathlib

/-!
Shallow embedding of `src/app.py` (uma-receptionist), the conversational
appointment-booking assistant.

Modelling conventions, used throughout:

* A datetime is an `Int`: minutes since 1970-01-01T00:00 measured on the
  business's fixed UTC+2 wall clock.  The source keeps every datetime in the
  fixed offset `TZ = timezone(timedelta(hours=2))` and only ever compares,
  adds minutes, and reads the calendar fields, so a single integer timeline
  is faithful.  A calendar date is its ordinal day number (`minutes / 1440`,
  floor division; `//` and `%` of Python on ints coincide with `Int.ediv` /
  `Int.emod` for positive divisors).
* Strings are Lean `String`s (lists of unicode chars).  Python's `\w`, case
  folding and whitespace classes are modelled on the alphabets the source
  actually uses: ASCII, Latin-extended (covers Latvian diacritics) and
  Cyrillic.
* `datetime.fromisoformat` (a CPython library routine) is passed in as an
  explicit function argument `fromIso : String → Option Int`, standing for
  "parse, convert/attach the business timezone, or fail"; the source wraps
  it in try/except, which the `Option` models.  Theorems quantify over it.
* Network effects: the OpenAI extraction call is passed in as an
  `Except Unit Extracted` (the source's try/except turns any failure into
  an all-`None` dict); the Google-calendar client is `Option GCal`, a record
  of its free/busy query and event-insert operations, each returning
  `Except Unit _` (exception = `error`).  Calendar-event creation attempts
  are recorded in the returned `events` trace.
* The per-language phrase tables `VOICE_TEXT` / `SMS_TEMPLATES` are keyed
  dictionaries; the state machine picks exactly one key at each return
  site.  The embedding returns those keys (`voiceKey`, `msgKey`) rather
  than the rendered template strings, which are channel plumbing.
-/

/-! ## Python string primitives -/

/-- Python whitespace (the ASCII fragment, which `str.strip()` uses on the
inputs occurring here): space, tab, LF, CR, VT, FF. -/
def isPySpace (c : Char) : Bool :=
  c = ' ' || c = '\t' || c = '\n' || c = '\r' || c = Char.ofNat 11 || c = Char.ofNat 12

/-- Strip leading and trailing whitespace from a char list. -/
def stripL (l : List Char) : List Char :=
  ((l.dropWhile isPySpace).reverse.dropWhile isPySpace).reverse

/-- Python `str.strip()`. -/
def pyStrip (s : String) : String := String.mk (stripL s.data)

/-- Lowercase Cyrillic range of the source's regexes: `[а-я]`. -/
def isCyrLower (c : Char) : Bool := 0x430 ≤ c.toNat && c.toNat ≤ 0x44F

/-- Uppercase Cyrillic range of the source's regexes: `[А-Я]`. -/
def isCyrUpper (c : Char) : Bool := 0x410 ≤ c.toNat && c.toNat ≤ 0x42F

/-- The character class `[а-яА-Я]` used by `detect_language` and
`is_cyrillic`. -/
def isCyrChar (c : Char) : Bool := isCyrLower c || isCyrUpper c

/-- The Latvian diacritic class `[āēīūčšžģķļņĀĒĪŪČŠŽĢĶĻŅ]` of
`detect_language`. -/
def isLvDiacritic (c : Char) : Bool :=
  c = 'ā' || c = 'ē' || c = 'ī' || c = 'ū' || c = 'č' || c = 'š' || c = 'ž' ||
  c = 'ģ' || c = 'ķ' || c = 'ļ' || c = 'ņ' ||
  c = 'Ā' || c = 'Ē' || c = 'Ī' || c = 'Ū' || c = 'Č' || c = 'Š' || c = 'Ž' ||
  c = 'Ģ' || c = 'Ķ' || c = 'Ļ' || c = 'Ņ'

/-- Python `str.lower()` on the alphabets the source's patterns use
(ASCII, Cyrillic, and the Latvian Latin-extended letters; the uppercase
Latvian letters sit one code point above their lowercase forms). -/
def pyLowerChar (c : Char) : Char :=
  if 'A' ≤ c && c ≤ 'Z' then Char.ofNat (c.toNat + 32)
  else if isCyrUpper c then Char.ofNat (c.toNat + 32)
  else if c.toNat = 0x401 then Char.ofNat 0x451
  else if c = 'Ā' || c = 'Ē' || c = 'Ī' || c = 'Ū' || c = 'Č' || c = 'Š' ||
          c = 'Ž' || c = 'Ģ' || c = 'Ķ' || c = 'Ļ' || c = 'Ņ' then
    Char.ofNat (c.toNat + 1)
  else c

/-- Python `str.lower()`. -/
def pyLowerStr (s : String) : String := String.mk (s.data.map pyLowerChar)

/-- Python's `\w` word-character class, on the alphabets relevant to the
source: ASCII alphanumerics, underscore, Latin-extended letters (Latvian
diacritics live in U+00C0–U+024F) and Cyrillic letters. -/
def isWordChar (c : Char) : Bool :=
  c.isAlphanum || c = '_' ||
  (0xC0 ≤ c.toNat && c.toNat ≤ 0x24F) ||
  (0x400 ≤ c.toNat && c.toNat ≤ 0x4FF)

/-- Numeric value of a digit char. -/
def digitVal (c : Char) : Nat := c.toNat - 48

/-- Match a literal char list as a prefix, returning the rest. -/
def matchLit : List Char → List Char → Option (List Char)
  | [], l => some l
  | _ :: _, [] => none
  | p :: ps, c :: cs => if c = p then matchLit ps cs else none

/-- Python `needle in haystack` (substring test). -/
def containsSub (p : List Char) (l : List Char) : Bool :=
  match matchLit p l with
  | some _ => true
  | none =>
    match l with
    | [] => false
    | _ :: rest => containsSub p rest

/-- Remove every occurrence of a literal (Python `str.replace(pat, "")`),
fuelled by the input length (each step consumes at least one char when the
pattern is non-empty). -/
def removeLitFuel (p : List Char) : Nat → List Char → List Char
  | 0, l => l
  | _ + 1, [] => []
  | n + 1, c :: rest =>
    match matchLit p (c :: rest) with
    | some after => removeLitFuel p n after
    | none => c :: removeLitFuel p n rest

/-- Python `str.replace(pat, "")`. -/
def removeLit (p : List Char) (l : List Char) : List Char :=
  removeLitFuel p l.length l

/-- Python `int()` on a plain digit string (the only shape the fixed
configuration strings "09:00" / "18:00" feed it). -/
def pyIntDigits (s : String) : Int :=
  (s.data.foldl (fun acc c => acc * 10 + digitVal c) 0 : Nat)

/-- Split a char list on a separator char (Python `str.split(sep)`). -/
def splitCharAux (sep : Char) : List Char → List Char → List String
  | [], acc => [String.mk acc.reverse]
  | c :: rest, acc =>
    if c = sep then String.mk acc.reverse :: splitCharAux sep rest []
    else splitCharAux sep rest (c :: acc)

/-- Python `s.split(sep)` for a single-char separator. -/
def splitChar (sep : Char) (s : String) : List String :=
  splitCharAux sep s.data []

/-! ## The regexes of `parse_time_text_to_dt`, embedded

Each regex of the source is embedded as a backtracking matcher over
`List Char` with Python `re.search` semantics: scan start positions left to
right, at each position try alternations in order and quantifiers greedily
with backtracking, return the first (leftmost) full match's groups.
`\b` at a position before a word character holds iff the previous character
is absent or not a word character; after a word character iff the next is
absent or not a word character. -/

/-- Word boundary before the current position (`prev` = preceding char). -/
def boundaryBefore : Option Char → Bool
  | none => true
  | some c => !isWordChar c

/-- Word boundary after a just-matched word char: next char absent or
non-word. -/
def wordBoundaryAfter : List Char → Bool
  | [] => true
  | c :: _ => !isWordChar c

/-- Separators of the time regex `[:. ]`. -/
def isTimeSep (c : Char) : Bool := c = ':' || c = '.' || c = ' '

/-- After the hour of `\b([01]?\d|2[0-3])[:. ]([0-5]\d)\b` has matched:
match separator, minute `[0-5]\d`, and the closing `\b`. -/
def timeTail (hh : Nat) : List Char → Option (Nat × Nat)
  | sep :: m1 :: m2 :: rest =>
    if isTimeSep sep && m1.isDigit && m1 ≤ '5' && m2.isDigit &&
        wordBoundaryAfter rest then
      some (hh, 10 * digitVal m1 + digitVal m2)
    else none
  | _ => none

/-- Try the whole time regex at the current position.  The alternation
`([01]?\d|2[0-3])` tries `[01]?\d` first (greedy `[01]?`, then backtrack to
the empty option), then `2[0-3]`. -/
def timeMatchAt (prev : Option Char) (l : List Char) : Option (Nat × Nat) :=
  if boundaryBefore prev then
    match l with
    | d0 :: rest0 =>
      if d0 = '0' || d0 = '1' then
        let greedy :=
          match rest0 with
          | d1 :: rest1 =>
            if d1.isDigit then timeTail (10 * digitVal d0 + digitVal d1) rest1
            else none
          | [] => none
        match greedy with
        | some r => some r
        | none => timeTail (digitVal d0) rest0
      else if d0.isDigit && d0 ≠ '2' then timeTail (digitVal d0) rest0
      else if d0 = '2' then
        match timeTail 2 rest0 with
        | some r => some r
        | none =>
          match rest0 with
          | d1 :: rest1 =>
            if d1.isDigit && d1 ≤ '3' then timeTail (20 + digitVal d1) rest1
            else none
          | [] => none
      else none
    | [] => none
  else none

/-- `re.search(r"\b([01]?\d|2[0-3])[:. ]([0-5]\d)\b", t)`: leftmost match,
returning `(hour, minute)`. -/
def timeSearch : Option Char → List Char → Option (Nat × Nat)
  | _, [] => none
  | prev, c :: rest =>
    match timeMatchAt prev (c :: rest) with
    | some r => some r
    | none => timeSearch (some c) rest

/-- Does the lowered text contain the code's HH:MM-like time-of-day
pattern?  (`parse_time_text_to_dt` lowercases before searching.) -/
def hasTimePattern (s : String) : Bool :=
  (timeSearch none (pyLowerStr s).data).isSome

/-- Day part of `\b(\d{4})-(\d{1,2})-(\d{1,2})\b`: greedy two digits with
closing `\b`, backtracking to one digit. -/
def isoDayTail (y mo : Nat) : List Char → Option (Nat × Nat × Nat)
  | [] => none
  | [d1] => if d1.isDigit then some (y, mo, digitVal d1) else none
  | d1 :: d2 :: rest =>
    if d1.isDigit then
      if d2.isDigit && wordBoundaryAfter rest then
        some (y, mo, 10 * digitVal d1 + digitVal d2)
      else if wordBoundaryAfter (d2 :: rest) then some (y, mo, digitVal d1)
      else none
    else none

/-- After the month of the ISO date regex: the literal `-` then the day. -/
def isoAfterMonth (y mo : Nat) : List Char → Option (Nat × Nat × Nat)
  | '-' :: rest => isoDayTail y mo rest
  | _ => none

/-- Month part `(\d{1,2})`: greedy two digits, backtracking to one. -/
def isoMonthTail (y : Nat) (l : List Char) : Option (Nat × Nat × Nat) :=
  match l with
  | m1 :: rest =>
    if m1.isDigit then
      let two :=
        match rest with
        | m2 :: rest2 =>
          if m2.isDigit then isoAfterMonth y (10 * digitVal m1 + digitVal m2) rest2
          else none
        | [] => none
      match two with
      | some r => some r
      | none => isoAfterMonth y (digitVal m1) rest
    else none
  | [] => none

/-- Try `\b(\d{4})-(\d{1,2})-(\d{1,2})\b` at the current position. -/
def isoMatchAt (prev : Option Char) (l : List Char) : Option (Nat × Nat × Nat) :=
  if boundaryBefore prev then
    match l with
    | a :: b :: c :: d :: '-' :: rest =>
      if a.isDigit && b.isDigit && c.isDigit && d.isDigit then
        isoMonthTail
          (1000 * digitVal a + 100 * digitVal b + 10 * digitVal c + digitVal d)
          rest
      else none
    | _ => none
  else none

/-- `re.search` for the explicit ISO date, returning `(y, m, d)`. -/
def isoSearch : Option Char → List Char → Option (Nat × Nat × Nat)
  | _, [] => none
  | prev, c :: rest =>
    match isoMatchAt prev (c :: rest) with
    | some r => some r
    | none => isoSearch (some c) rest

/-- Separators of the day/month regex `[./]`. -/
def isDmSep (c : Char) : Bool := c = '.' || c = '/'

/-- The optional year of `(?:[./](\d{2,4}))?\b`, greedy: four digits, then
three, then two, each with the closing `\b`. -/
def dmYear (l : List Char) : Option Nat :=
  match l with
  | s :: a :: b :: rest =>
    if isDmSep s && a.isDigit && b.isDigit then
      match rest with
      | c :: rest1 =>
        if c.isDigit then
          match rest1 with
          | d :: rest2 =>
            if d.isDigit && wordBoundaryAfter rest2 then
              some (1000 * digitVal a + 100 * digitVal b + 10 * digitVal c + digitVal d)
            else if wordBoundaryAfter (d :: rest2) then
              some (100 * digitVal a + 10 * digitVal b + digitVal c)
            else none
          | [] => some (100 * digitVal a + 10 * digitVal b + digitVal c)
        else if wordBoundaryAfter (c :: rest1) then
          some (10 * digitVal a + digitVal b)
        else none
      | [] => some (10 * digitVal a + digitVal b)
    else none
  | _ => none

/-- The optional group is tried first; on failure the regex matches without
it, provided the `\b` after the month holds. -/
def dmOpt (l : List Char) : Option (Option Nat) :=
  match dmYear l with
  | some y => some (some y)
  | none => if wordBoundaryAfter l then some none else none

/-- Month of `\b(\d{1,2})[./](\d{1,2})(?:[./](\d{2,4}))?\b`: greedy two
digits, backtrack to one. -/
def dmMonthTail (d : Nat) (l : List Char) : Option (Nat × Nat × Option Nat) :=
  match l with
  | m1 :: rest =>
    if m1.isDigit then
      let two :=
        match rest with
        | m2 :: rest2 =>
          if m2.isDigit then
            (dmOpt rest2).map fun y => (d, 10 * digitVal m1 + digitVal m2, y)
          else none
        | [] => none
      match two with
      | some r => some r
      | none => (dmOpt rest).map fun y => (d, digitVal m1, y)
    else none
  | [] => none

/-- Try the day/month regex at the current position; the day `(\d{1,2})` is
greedy with backtracking. -/
def dmMatchAt (prev : Option Char) (l : List Char) : Option (Nat × Nat × Option Nat) :=
  if boundaryBefore prev then
    match l with
    | d1 :: rest =>
      if d1.isDigit then
        let two :=
          match rest with
          | d2 :: s :: rest2 =>
            if d2.isDigit && isDmSep s then
              dmMonthTail (10 * digitVal d1 + digitVal d2) rest2
            else none
          | _ => none
        match two with
        | some r => some r
        | none =>
          match rest with
          | s :: rest1 => if isDmSep s then dmMonthTail (digitVal d1) rest1 else none
          | [] => none
      else none
    | [] => none
  else none

/-- `re.search` for the day/month date, returning `(day, month, year?)`. -/
def dmSearch : Option Char → List Char → Option (Nat × Nat × Option Nat)
  | _, [] => none
  | prev, c :: rest =>
    match dmMatchAt prev (c :: rest) with
    | some r => some r
    | none => dmSearch (some c) rest

/-- `\s+`: at least one whitespace char, consumed greedily (the following
pattern element is never whitespace, so no backtracking is observable). -/
def skipSpacesStar : List Char → List Char
  | [] => []
  | c :: rest => if isPySpace c then skipSpacesStar rest else c :: rest

/-- Require one whitespace char, then skip the rest. -/
def skipSpaces1 : List Char → Option (List Char)
  | [] => none
  | c :: rest => if isPySpace c then some (skipSpacesStar rest) else none

/-- After the count of `через\s+(\d{1,2})\s*(дн|дня|дней)`: optional
spaces, then the alternation, whose first branch `дн` is a prefix of the
others, so it succeeds iff `дн` follows. -/
def ruNumTail (n : Nat) (l : List Char) : Option Nat :=
  match matchLit "дн".data (skipSpacesStar l) with
  | some _ => some n
  | none => none

/-- After the literal `через`: spaces, a greedy 1–2 digit count, tail. -/
def ruTailAfterCherez (l : List Char) : Option Nat :=
  match skipSpaces1 l with
  | none => none
  | some l1 =>
    match l1 with
    | a :: rest =>
      if a.isDigit then
        let two :=
          match rest with
          | b :: rest2 =>
            if b.isDigit then ruNumTail (10 * digitVal a + digitVal b) rest2
            else none
          | [] => none
        match two with
        | some n => some n
        | none => ruNumTail (digitVal a) rest
      else none
    | [] => none

/-- `re.search(r"через\s+(\d{1,2})\s*(дн|дня|дней)", t)`, returning the
day count. -/
def ruSearch : List Char → Option Nat
  | [] => none
  | c :: rest =>
    match matchLit "через".data (c :: rest) with
    | some l1 =>
      match ruTailAfterCherez l1 with
      | some n => some n
      | none => ruSearch rest
    | none => ruSearch rest

/-- Tail of `\bin\s+(\d{1,2})\s+days\b` after the count. -/
def enDaysTail (l : List Char) : Bool :=
  match skipSpaces1 l with
  | none => false
  | some l1 =>
    match matchLit "days".data l1 with
    | some rest => wordBoundaryAfter rest
    | none => false

/-- Try `\bin\s+(\d{1,2})\s+days\b` at the current position. -/
def enMatchAt (prev : Option Char) (l : List Char) : Option Nat :=
  if boundaryBefore prev then
    match matchLit "in".data l with
    | some l1 =>
      match skipSpaces1 l1 with
      | none => none
      | some l2 =>
        match l2 with
        | a :: rest =>
          if a.isDigit then
            let two :=
              match rest with
              | b :: rest2 =>
                if b.isDigit && enDaysTail rest2 then
                  some (10 * digitVal a + digitVal b)
                else none
              | [] => none
            match two with
            | some n => some n
            | none => if enDaysTail rest then some (digitVal a) else none
          else none
        | [] => none
    | none => none
  else none

/-- `re.search` for the English relative-days phrase. -/
def enSearch : Option Char → List Char → Option Nat
  | _, [] => none
  | prev, c :: rest =>
    match enMatchAt prev (c :: rest) with
    | some n => some n
    | none => enSearch (some c) rest

/-- Tail of `pēc\s+(\d{1,2})\s+dien` after the count. -/
def lvDienTail (l : List Char) : Bool :=
  match skipSpaces1 l with
  | none => false
  | some l1 => (matchLit "dien".data l1).isSome

/-- After the literal `pēc`: spaces, greedy 1–2 digit count, tail. -/
def lvTailAfterPec (l : List Char) : Option Nat :=
  match skipSpaces1 l with
  | none => none
  | some l1 =>
    match l1 with
    | a :: rest =>
      if a.isDigit then
        let two :=
          match rest with
          | b :: rest2 =>
            if b.isDigit && lvDienTail rest2 then
              some (10 * digitVal a + digitVal b)
            else none
          | [] => none
        match two with
        | some n => some n
        | none => if lvDienTail rest then some (digitVal a) else none
      else none
    | [] => none

/-- `re.search(r"pēc\s+(\d{1,2})\s+dien", t)`. -/
def lvSearch : List Char → Option Nat
  | [] => none
  | c :: rest =>
    match matchLit "pēc".data (c :: rest) with
    | some l1 =>
      match lvTailAfterPec l1 with
      | some n => some n
      | none => lvSearch rest
    | none => lvSearch rest

/-! ## Calendar arithmetic

Proleptic Gregorian conversions between `(year, month, day)` and the
ordinal day number (days since 1970-01-01), the standard civil-calendar
algorithm with floor division. -/

/-- Gregorian leap year, as `calendar`/`datetime` compute it. -/
def isLeapYear (y : Int) : Bool :=
  (y % 4 = 0 && ¬ y % 100 = 0) || y % 400 = 0

/-- Days in a month. -/
def daysInMonth (y m : Int) : Int :=
  if m = 1 then 31 else if m = 2 then (if isLeapYear y then 29 else 28)
  else if m = 3 then 31 else if m = 4 then 30 else if m = 5 then 31
  else if m = 6 then 30 else if m = 7 then 31 else if m = 8 then 31
  else if m = 9 then 30 else if m = 10 then 31 else if m = 11 then 30
  else 31

/-- Python `datetime.date(y, m, d)` succeeds exactly on these triples
(`MINYEAR = 1`, `MAXYEAR = 9999`). -/
def dateOk (y m d : Int) : Bool :=
  1 ≤ y && y ≤ 9999 && 1 ≤ m && m ≤ 12 && 1 ≤ d && d ≤ daysInMonth y m

/-- `(y, m, d)` to days since 1970-01-01. -/
def ordinalOfYmd (y m d : Int) : Int :=
  let y' := if m ≤ 2 then y - 1 else y
  let era := y' / 400
  let yoe := y' - era * 400
  let mp := if m > 2 then m - 3 else m + 9
  let doy := (153 * mp + 2) / 5 + d - 1
  let doe := yoe * 365 + yoe / 4 - yoe / 100 + doy
  era * 146097 + doe - 719468

/-- Days since 1970-01-01 to `(y, m, d)`. -/
def ymdOfOrdinal (z : Int) : Int × Int × Int :=
  let z' := z + 719468
  let era := z' / 146097
  let doe := z' - era * 146097
  let yoe := (doe - doe / 1460 + doe / 36524 - doe / 146096) / 365
  let y := yoe + era * 400
  let doy := doe - (365 * yoe + yoe / 4 - yoe / 100)
  let mp := (5 * doy + 2) / 153
  let d := doy - (153 * mp + 2) / 5 + 1
  let m := if mp < 10 then mp + 3 else mp - 9
  (if m ≤ 2 then y + 1 else y, m, d)

/-- Python `date.weekday()` (Monday = 0) of an ordinal day;
1970-01-01 was a Thursday. -/
def weekdayOfOrdinal (z : Int) : Int := (z + 3) % 7

/-- Left-pad a (nonnegative) integer's decimal digits to two places. -/
def pad2 (n : Int) : String := if n < 10 then "0" ++ toString n else toString n

/-- Left-pad to four places (`%Y` and `isoformat` zero-pad the year). -/
def pad4 (n : Int) : String :=
  if n < 10 then "000" ++ toString n
  else if n < 100 then "00" ++ toString n
  else if n < 1000 then "0" ++ toString n
  else toString n

/-- `datetime.isoformat()` of a minute-resolution datetime carrying the
business timezone: `YYYY-MM-DDTHH:MM:SS+02:00`. -/
def isoformatDT (dt : Int) : String :=
  let day := dt / 1440
  let rem := dt % 1440
  let ymd := ymdOfOrdinal day
  pad4 ymd.1 ++ "-" ++ pad2 ymd.2.1 ++ "-" ++ pad2 ymd.2.2 ++ "T" ++
    pad2 (rem / 60) ++ ":" ++ pad2 (rem % 60) ++ ":00+02:00"

/-- `dt.strftime("%Y-%m-%d %H:%M")`. -/
def fmtYmdHm (dt : Int) : String :=
  let day := dt / 1440
  let rem := dt % 1440
  let ymd := ymdOfOrdinal day
  pad4 ymd.1 ++ "-" ++ pad2 ymd.2.1 ++ "-" ++ pad2 ymd.2.2 ++ " " ++
    pad2 (rem / 60) ++ ":" ++ pad2 (rem % 60)

/-! ## `parse_time_text_to_dt` and `parse_dt_from_iso_or_fallback` -/

/-- The relative-date fallback chain of `parse_time_text_to_dt` (the
`else` branch after the explicit date regexes): "day after tomorrow"
keywords, "tomorrow" keywords, the three "in N days" regexes, then named
weekdays (English list first, then Russian, then Latvian, first match by
list order), with next-week qualifiers.  `today` is the ordinal of
`today_local()`. -/
def findInAux (tc : List Char) : List String → Nat → Option Nat
  | [], _ => none
  | w :: ws, i => if containsSub w.data tc then some i else findInAux tc ws (i + 1)

/-- The `find_weekday` helper: first hit across the three weekday lists. -/
def find_weekday (tc : List Char) : Option Nat :=
  match findInAux tc ["monday", "tuesday", "wednesday", "thursday", "friday",
      "saturday", "sunday"] 0 with
  | some i => some i
  | none =>
    match findInAux tc ["понедельник", "вторник", "среда", "четверг",
        "пятница", "суббота", "воскресенье"] 0 with
    | some i => some i
    | none =>
      findInAux tc ["pirmdiena", "otrdiena", "trešdiena", "ceturtdiena",
        "piektdiena", "sestdiena", "svētdiena"] 0

/-- The relative-date chain, producing the base ordinal date. -/
def relativeBase (today : Int) (tc : List Char) : Int :=
  if containsSub "day after tomorrow".data tc || containsSub "послезавтра".data tc ||
      containsSub "после завтра".data tc || containsSub "parīt".data tc ||
      containsSub "parit".data tc then
    today + 2
  else if containsSub "tomorrow".data tc || containsSub "завтра".data tc ||
      containsSub "rīt".data tc || containsSub "rit".data tc then
    today + 1
  else
    match ruSearch tc with
    | some n => today + n
    | none =>
      match enSearch none tc with
      | some n => today + n
      | none =>
        match lvSearch tc with
        | some n => today + n
        | none =>
          match find_weekday tc with
          | some wd =>
            let todayWd := weekdayOfOrdinal today
            let delta := ((wd : Int) - todayWd) % 7
            let delta := if delta = 0 then 7 else delta
            let delta :=
              if containsSub " next ".data tc || containsSub "следующ".data tc ||
                  containsSub "nākam".data tc then
                delta + 7
              else delta
            today + delta
          | none => today

/-- The date component of `parse_time_text_to_dt` after the time-of-day
pattern matched: explicit ISO date first, then day/month (with the
past-rolls-forward rule when the year is omitted), then the relative
chain.  `Except` models the `return None` exits on `ValueError`. -/
def dateBase (today : Int) (tc : List Char) : Except Unit Int :=
  match isoSearch none tc with
  | some (y, mo, d) =>
    if dateOk y mo d then Except.ok (ordinalOfYmd y mo d) else Except.error ()
  | none =>
    match dmSearch none tc with
    | some (d, mo, yraw) =>
      match yraw with
      | some yr =>
        let y : Int := if (yr : Int) < 100 then (yr : Int) + 2000 else (yr : Int)
        if dateOk y mo d then Except.ok (ordinalOfYmd y mo d) else Except.error ()
      | none =>
        let y := (ymdOfOrdinal today).1
        if dateOk y mo d then
          let cand := ordinalOfYmd y mo d
          if cand < today then
            if dateOk (y + 1) mo d then Except.ok (ordinalOfYmd (y + 1) mo d)
            else Except.error ()
          else Except.ok cand
        else Except.error ()
    | none => Except.ok (relativeBase today tc)

/-- `parse_time_text_to_dt(text)`: require the HH:MM-like time-of-day
pattern, then determine the date, then compose (in the business timezone).
`today` is the ordinal of `today_local()`. -/
def parse_time_text_to_dt (today : Int) (text : String) : Option Int :=
  if text = "" then none
  else
    let tc := (pyLowerStr text).data
    match timeSearch none tc with
    | none => none
    | some (hh, mm) =>
      match dateBase today tc with
      | Except.error _ => none
      | Except.ok base => some (base * 1440 + ((hh * 60 + mm : Nat) : Int))

/-- `parse_dt_from_iso_or_fallback`: prefer the model-suggested ISO string
(via the library parser `fromIso`, whose failure the source's try/except
turns into a fall-through), else regex extraction over the free time text
concatenated with the raw utterance. -/
def parse_dt_from_iso_or_fallback (fromIso : String → Option Int) (today : Int)
    (datetime_iso time_text : Option String) (raw_text : String) : Option Int :=
  let iso := pyStrip (datetime_iso.getD "")
  let viaIso := if iso ≠ "" then fromIso iso else none
  match viaIso with
  | some dt => some dt
  | none =>
    let combined := pyStrip ((time_text.getD "") ++ " " ++ raw_text)
    parse_time_text_to_dt today combined

/-! ## Configuration and business-hours check

The configuration is modelled at its default values (`WORK_START_HHMM =
"09:00"`, `WORK_END_HHMM = "18:00"`, `APPT_MINUTES = 30`,
`CONV_TTL_MIN = 30`, `BIZ_NAME = "Repliq"`). -/

def WORK_START_HHMM : String := "09:00"

def WORK_END_HHMM : String := "18:00"

def APPT_MINUTES : Int := 30

def CONV_TTL_MIN : Int := 30

def BUSINESS_NAME : String := "Repliq"

/-- `_parse_hhmm`: split on `:` and read the two integers. -/
def parseHhmm (hhmm : String) : Int × Int :=
  match splitChar ':' hhmm with
  | [hh, mm] => (pyIntDigits hh, pyIntDigits mm)
  | _ => (0, 0)

/-- `in_business_hours(dt_start, duration_min)`: the appointment must lie
within the working-hours window of `dt_start`'s own calendar day
(`dt_start.replace(hour=…, minute=…)` keeps the day). -/
def in_business_hours (dt_start : Int) (duration_min : Int) : Bool :=
  let ws := parseHhmm WORK_START_HHMM
  let we := parseHhmm WORK_END_HHMM
  let day := dt_start / 1440
  let day_start := day * 1440 + ws.1 * 60 + ws.2
  let day_end := day * 1440 + we.1 * 60 + we.2
  let dt_end := dt_start + duration_min
  decide (day_start ≤ dt_start ∧ dt_end ≤ day_end)

/-! ## Language helpers -/

/-- `get_lang`: pass a supported language through, default to `"en"`. -/
def get_lang (v : String) : String :=
  if v = "en" ∨ v = "ru" ∨ v = "lv" then v else "en"

/-- Is the value one of the three supported languages?  (the membership
test `value in ("en", "ru", "lv")`). -/
def validLang (v : String) : Bool := v = "en" || v = "ru" || v = "lv"

/-- `detect_language`: Latvian diacritics beat Cyrillic beats the English
default. -/
def detect_language (t : String) : String :=
  if t.data.any isLvDiacritic then "lv"
  else if t.data.any isCyrChar then "ru"
  else "en"

/-- `is_cyrillic`. -/
def is_cyrillic (s : String) : Bool := s.data.any isCyrChar

/-- `looks_like_lv_service_text`. -/
def looks_like_lv_service_text (msg : String) : Bool :=
  let m := (pyLowerStr msg).data
  containsSub "friz".data m || containsSub "griez".data m ||
  containsSub "manik".data m || containsSub "pedik".data m ||
  containsSub "uzac".data m || containsSub "krās".data m ||
  containsSub "masaž".data m || containsSub "skropst".data m

/-- `norm_user_key`: strip, drop the `whatsapp:` scheme, keep only digits
and `+`, defaulting to `"unknown"`. -/
def norm_user_key (phone : String) : String :=
  let p := pyStrip phone
  let p := String.mk (removeLit "whatsapp:".data p.data)
  let p := String.mk (p.data.filter fun c => c.isDigit || c = '+')
  if p = "" then "unknown" else p

/-! ## External collaborators -/

/-- The arguments of a `create_calendar_event` call (its string result,
an event link, is discarded by the caller). -/
structure CalEvent where
  start : Int
  durationMin : Int
  summary : String
  description : String
deriving DecidableEq, Repr

/-- The Google-calendar client, when configured: a free/busy query and an
event insert, each able to raise (`Except.error`). -/
structure GCal where
  freebusy : Int → Int → Except Unit (List (Int × Int))
  insertEvent : CalEvent → Except Unit String

/-- `is_slot_busy`: no client or a raised query means "not busy"
(fail open); otherwise busy iff the returned busy list is non-empty. -/
def is_slot_busy (gcal : Option GCal) (dt_start dt_end : Int) : Bool :=
  match gcal with
  | none => false
  | some g =>
    match g.freebusy dt_start dt_end with
    | Except.error _ => false
    | Except.ok busy => decide (busy.length > 0)

/-- `create_calendar_event`: no client or a raised insert yields `None`,
otherwise the created event's link. -/
def create_calendar_event (gcal : Option GCal) (dt_start duration_min : Int)
    (summary description : String) : Option String :=
  match gcal with
  | none => none
  | some g =>
    match g.insertEvent ⟨dt_start, duration_min, summary, description⟩ with
    | Except.error _ => none
    | Except.ok link => some link

/-- The loop of `find_next_two_slots`: up to `fuel` candidates in 30-minute
steps, collecting in-hours not-busy starts, returning the pair as soon as
two are found. -/
def findSlotsAux (gcal : Option GCal) (duration_min : Int) :
    Nat → Int → List Int → Option (Int × Int)
  | 0, _, _ => none
  | n + 1, candidate, found =>
    if in_business_hours candidate duration_min then
      if is_slot_busy gcal candidate (candidate + duration_min) then
        findSlotsAux gcal duration_min n (candidate + 30) found
      else
        let found2 := found ++ [candidate]
        if found2.length = 2 then
          match found2 with
          | [a, b] => some (a, b)
          | _ => none
        else findSlotsAux gcal duration_min n (candidate + 30) found2
    else findSlotsAux gcal duration_min n (candidate + 30) found

/-- `find_next_two_slots(dt_start, duration_min)`: 48 iterations of the
30-minute scan (about a day), `None` unless two slots were found. -/
def find_next_two_slots (gcal : Option GCal) (dt_start duration_min : Int) :
    Option (Int × Int) :=
  findSlotsAux gcal duration_min 48 dt_start []

/-- The same loop, exposing the `found` list at the moment the source's
loop stops (two collected, or the bound exhausted).  Used to state what
the search collected versus what it returns. -/
def collectSlotsAux (gcal : Option GCal) (duration_min : Int) :
    Nat → Int → List Int → List Int
  | 0, _, found => found
  | n + 1, candidate, found =>
    if in_business_hours candidate duration_min then
      if is_slot_busy gcal candidate (candidate + duration_min) then
        collectSlotsAux gcal duration_min n (candidate + 30) found
      else
        let found2 := found ++ [candidate]
        if found2.length = 2 then found2
        else collectSlotsAux gcal duration_min n (candidate + 30) found2
    else collectSlotsAux gcal duration_min n (candidate + 30) found

/-- The candidates `find_next_two_slots` collects within its bound. -/
def collectedSlots (gcal : Option GCal) (dt_start duration_min : Int) : List Int :=
  collectSlotsAux gcal duration_min 48 dt_start []

/-- A two-element list as a pair, anything else as `none`. -/
def listToPair : List Int → Option (Int × Int)
  | [a, b] => some (a, b)
  | _ => none

/-! ## Conversation memory -/

/-- One `history` entry (the source stores an isoformat timestamp; the
minute value is kept directly). -/
structure HistEntry where
  ts : Int
  channel : String
  text : String
deriving DecidableEq, Repr

/-- The `pending` offer dict: two alternative slots as isoformat strings,
plus the service/name captured when the offer was made. -/
structure PendingOffer where
  opt1_iso : String
  opt2_iso : String
  service : Option String
  name : Option String
deriving DecidableEq, Repr

/-- A per-phone conversation-memory record (one value of `CONV`);
`created_at` / `updated_at` are kept as minute values (the source stores
isoformat strings of them). -/
structure ConvMem where
  created_at : Int
  updated_at : Int
  lang : String
  history : List HistEntry
  service : Option String
  name : Option String
  datetime_iso : Option String
  time_text : Option String
  pending : Option PendingOffer
deriving DecidableEq, Repr

/-- Python truthiness of an optional string (`None` and `""` are falsy). -/
def truthyO : Option String → Bool
  | none => false
  | some s => s ≠ ""

/-- Python `a or b` on optional strings. -/
def pyOr (a b : Option String) : Option String := if truthyO a then a else b

/-- `_short(s, n)`: strip and truncate, `None` to `""`. -/
def pyShort (s : Option String) (n : Nat) : String :=
  String.mk ((pyStrip (s.getD "")).data.take n)

/-- Render an optional string the way an f-string does (`None` prints as
`"None"`). -/
def optStr : Option String → String
  | none => "None"
  | some s => s

/-- `_conv_expired`: more than `CONV_TTL_MIN` minutes since the last
update. -/
def conv_expired (now : Int) (c : ConvMem) : Bool :=
  decide (now - c.updated_at > CONV_TTL_MIN)

/-- The fresh record `get_conv` creates. -/
def freshConv (now : Int) (lang : String) : ConvMem :=
  { created_at := now
    updated_at := now
    lang := get_lang lang
    history := []
    service := none
    name := none
    datetime_iso := none
    time_text := none
    pending := none }

/-- `get_conv(user_key, default_lang)`, given the current `CONV` lookup
result: drop an expired record, create a fresh one if needed, re-apply a
valid language hint, refresh `updated_at`. -/
def get_conv (now : Int) (existing : Option ConvMem) (default_lang : String) :
    ConvMem :=
  let c :=
    match existing with
    | some c => if conv_expired now c then freshConv now default_lang else c
    | none => freshConv now default_lang
  let c := if validLang default_lang then { c with lang := get_lang default_lang } else c
  { c with updated_at := now }

/-! ## The conversation state machine (`handle_user_text`) -/

/-- The extractor's best-effort structured guess (`openai_chat_json`'s
JSON, field by field). -/
structure Extracted where
  service : Option String
  time_text : Option String
  datetime_iso : Option String
  name : Option String
  phone : Option String
deriving DecidableEq, Repr

/-- The all-`None` guess (missing API key, or any raised failure). -/
def allNull : Extracted := ⟨none, none, none, none, none⟩

/-- The `try/except` around the extraction call: failure degrades to
all-`None`. -/
def dataOf : Except Unit Extracted → Extracted
  | Except.ok d => d
  | Except.error _ => allNull

/-- The source's `status` strings as a closed variant. -/
inductive TurnStatus
  | need_more
  | booked
  | busy
  | recovery
deriving DecidableEq, Repr

/-- The result of one turn: the status, the `VOICE_TEXT` key of
`reply_voice`, the `SMS_TEMPLATES` key of `msg_out`, the chosen language,
the conversation memory as mutated by the turn, and the
`create_calendar_event` calls the turn performed. -/
structure TurnOut where
  status : TurnStatus
  voiceKey : String
  msgKey : String
  lang : String
  conv : ConvMem
  events : List CalEvent
deriving Repr

/-- A `need_more` return site. -/
def needMoreOut (voiceKey msgKey lang : String) (c : ConvMem) : TurnOut :=
  ⟨TurnStatus.need_more, voiceKey, msgKey, lang, c, []⟩

/-- `msg = (text or "").strip()`. -/
def turnMsg (text : String) : String := pyStrip text

/-- The language-hint fallback at the top of `handle_user_text`. -/
def effLangHint (lang_hint msg : String) : String :=
  if validLang lang_hint then lang_hint else detect_language msg

/-- The memory at the branch point: `get_conv` plus the history append. -/
def convAtTurn (now : Int) (existing : Option ConvMem) (lh msg channel : String) :
    ConvMem :=
  let c := get_conv now existing lh
  { c with history := c.history ++ [⟨now, channel, msg⟩] }

/-- The service after the merge step: the extracted service (stripped,
with the Latvian-service heuristic of the source) overwrites the stored
one when truthy. -/
def mergedService (lang msg : String) (data : Extracted) (c : ConvMem) : Option String :=
  let extracted_service : Option String :=
    match data.service with
    | some s => if s ≠ "" then some (pyStrip s) else none
    | none => none
  let extracted_service :=
    if lang = "lv" && truthyO extracted_service &&
        is_cyrillic (extracted_service.getD "") && looks_like_lv_service_text msg then
      some msg
    else extracted_service
  if truthyO extracted_service then extracted_service else c.service

/-- The name after the merge step: a truthy extracted name overwrites. -/
def mergedName (data : Extracted) (c : ConvMem) : Option String :=
  match data.name with
  | some nm => if nm ≠ "" then some nm else c.name
  | none => c.name

/-- Field merge of the normal path (`service`/`name` always overwritten by
a truthy extracted value, everything else untouched). -/
def mergeExtracted (lang msg : String) (data : Extracted) (c : ConvMem) : ConvMem :=
  { c with service := mergedService lang msg data c, name := mergedName data c }

/-- Store a freshly resolved time (and only then). -/
def storeTime (dtO : Option Int) (c : ConvMem) : ConvMem :=
  match dtO with
  | some dt =>
    { c with datetime_iso := some (isoformatDT dt), time_text := some (fmtYmdHm dt) }
  | none => c

/-- The booking return site of the normal path (step 6 of the source). -/
def bookStage (dt : Int) (c : ConvMem) (msg channel raw_phone lang : String)
    (data : Extracted) : TurnOut :=
  let service := c.service
  let name := if truthyO c.name then c.name.getD "" else "Client"
  let summary := BUSINESS_NAME ++ " — " ++ pyShort service 60
  let desc :=
    "Name: " ++ name ++ "\nPhone: " ++ raw_phone ++ "\nService: " ++ optStr service ++
    "\nOriginal: " ++ msg ++ "\nModel service: " ++ optStr data.service ++
    "\nModel time_text: " ++ optStr data.time_text ++
    "\nModel datetime_iso: " ++ optStr data.datetime_iso ++
    "\nStored datetime_iso: " ++ optStr c.datetime_iso ++
    "\nSource: " ++ channel ++ "\n"
  ⟨TurnStatus.booked, "confirmed", "confirmed", lang, c, [⟨dt, APPT_MINUTES, summary, desc⟩]⟩

/-- Steps 5–6 of the source: exact-slot busy check, alternatives offer,
recovery, or booking. -/
def availabilityStage (gcal : Option GCal) (dt : Int) (c : ConvMem)
    (msg channel raw_phone lang : String) (data : Extracted) : TurnOut :=
  let dt_end := dt + APPT_MINUTES
  if is_slot_busy gcal dt dt_end then
    match find_next_two_slots gcal dt APPT_MINUTES with
    | some (opt1, opt2) =>
      let c2 := { c with
          pending := some ⟨isoformatDT opt1, isoformatDT opt2, c.service, c.name⟩ }
      ⟨TurnStatus.busy, "busy", "busy", lang, c2, []⟩
    | none => ⟨TurnStatus.recovery, "recovery", "recovery", lang, c, []⟩
  else bookStage dt c msg channel raw_phone lang data

/-- Steps 3–4 of the source: the missing-field chain (service, then this
turn's resolved time, then name) and the business-hours gate, in that
order; the first failure asks its one question. -/
def fieldGate (gcal : Option GCal) (dtO : Option Int) (c : ConvMem)
    (msg channel raw_phone lang : String) (data : Extracted) : TurnOut :=
  if truthyO c.service then
    match dtO with
    | some dt =>
      if truthyO c.name then
        if in_business_hours dt APPT_MINUTES then
          availabilityStage gcal dt c msg channel raw_phone lang data
        else needMoreOut "outside_hours" "ask_time" lang c
      else needMoreOut "need_name" "ask_name" lang c
    | none => needMoreOut "need_time" "ask_time" lang c
  else needMoreOut "need_service" "ask_service" lang c

/-- This turn's time resolution, from this turn's extractor output and
utterance only. -/
def turnDt (now : Int) (fromIso : String → Option Int)
    (er : Except Unit Extracted) (text : String) : Option Int :=
  parse_dt_from_iso_or_fallback fromIso (now / 1440) (dataOf er).datetime_iso
    (dataOf er).time_text (turnMsg text)

/-- The language used by the normal path (the source re-normalizes from
the current hint, which is always non-empty by this point). -/
def turnLang (lh lang0 : String) : String :=
  if lh ≠ "" then get_lang lh else lang0

/-- The memory after the normal path's language re-set and field merge. -/
def turnMerged (now : Int) (er : Except Unit Extracted)
    (existing : Option ConvMem) (text channel lang_hint : String) : ConvMem :=
  let msg := turnMsg text
  let lh := effLangHint lang_hint msg
  let c := convAtTurn now existing lh msg channel
  let lang := turnLang lh (get_lang c.lang)
  let c := if lh ≠ "" then { c with lang := lang } else c
  mergeExtracted lang msg (dataOf er) c

/-- The normal (non-offer-choice) path of `handle_user_text`: extraction
merge, fresh time resolution and store, then the field gate. -/
def normalTurn (now : Int) (fromIso : String → Option Int) (gcal : Option GCal)
    (er : Except Unit Extracted) (existing : Option ConvMem)
    (text channel lang_hint raw_phone : String) : TurnOut :=
  let msg := turnMsg text
  let lh := effLangHint lang_hint msg
  let lang := turnLang lh (get_lang (convAtTurn now existing lh msg channel).lang)
  let dtO := turnDt now fromIso er text
  fieldGate gcal dtO (storeTime dtO (turnMerged now er existing text channel lang_hint))
    msg channel raw_phone lang (dataOf er)

/-- Step 0 of the source: a `1`/`2` reply while an offer is pending books
the chosen option (the stored isoformat string is re-parsed by the library
parser; a parse failure clears the offer and re-asks for time). -/
def offerChoiceTurn (fromIso : String → Option Int) (c : ConvMem)
    (pending : PendingOffer) (msg channel raw_phone lang : String) : TurnOut :=
  let chosen_iso := if msg = "1" then pending.opt1_iso else pending.opt2_iso
  match fromIso chosen_iso with
  | none =>
    needMoreOut "need_time" "ask_time" lang { c with pending := none }
  | some dt_start =>
    let service := pyOr pending.service c.service
    let nameO := pyOr pending.name c.name
    let name := if truthyO nameO then nameO.getD "" else "Client"
    let summary := BUSINESS_NAME ++ " — " ++ pyShort service 60
    let desc :=
      "Name: " ++ name ++ "\nPhone: " ++ raw_phone ++ "\nService: " ++
      optStr service ++ "\nSource: " ++ channel ++ " (option " ++ msg ++ ")\n"
    let c := { c with
        pending := none
        service := service
        name := some name
        datetime_iso := some (isoformatDT dt_start)
        time_text := some (fmtYmdHm dt_start) }
    ⟨TurnStatus.booked, "confirmed", "confirmed", lang, c,
      [⟨dt_start, APPT_MINUTES, summary, desc⟩]⟩

/-- `handle_user_text(user_key, text, channel, lang_hint, raw_phone)`.
`existing` is the `CONV` record under the caller's key (the map update
itself is the returned `conv`); `now`, `fromIso`, `gcal`, `er` are the
environment as described at the top of the file. -/
def handle_user_text (now : Int) (fromIso : String → Option Int)
    (gcal : Option GCal) (er : Except Unit Extracted)
    (existing : Option ConvMem) (text channel lang_hint raw_phone : String) :
    TurnOut :=
  let msg := turnMsg text
  let lh := effLangHint lang_hint msg
  let c := convAtTurn now existing lh msg channel
  let lang := get_lang c.lang
  match c.pending with
  | some pending =>
    if msg = "1" ∨ msg = "2" then
      offerChoiceTurn fromIso c pending msg channel raw_phone lang
    else normalTurn now fromIso gcal er existing text channel lang_hint raw_phone
  | none => normalTurn now fromIso gcal er existing text channel lang_hint raw_phone

/-! ## Channel entry points touching `CONV` -/

/-- The `/sms/incoming` route's call into the state machine: strip the
body, detect the language hint from it, pass the raw sender as the phone.
(The `CONV` lookup under `norm_user_key(from_number)` is passed in as
`existing`.) -/
def sms_incoming_turn (now : Int) (fromIso : String → Option Int)
    (gcal : Option GCal) (er : Except Unit Extracted)
    (existing : Option ConvMem) (from_number body : String) : TurnOut :=
  let body_in := pyStrip body
  let lang_hint := detect_language body_in
  handle_user_text now fromIso gcal er existing body_in "sms" lang_hint from_number

/-- Association-list model of the global `CONV` dict. -/
def lookupConv : List (String × ConvMem) → String → Option ConvMem
  | [], _ => none
  | (k, v) :: rest, key => if k = key then some v else lookupConv rest key

/-- `CONV.pop(user_key, None)`: drop the binding. -/
def eraseConv (convMap : List (String × ConvMem)) (key : String) :
    List (String × ConvMem) :=
  convMap.filter fun p => !(p.1 = key : Bool)

/-- The effect of `/voice/incoming` on `CONV`: when the tenant is allowed,
the handler deletes the caller's conversation memory (fresh start per
call) — but only when the normalized key is non-empty and not
`"unknown"`. -/
def voice_incoming_convs (allowed : Bool) (caller : String)
    (convMap : List (String × ConvMem)) : List (String × ConvMem) :=
  if allowed then
    let user_key := norm_user_key caller
    if user_key ≠ "" ∧ user_key ≠ "unknown" then eraseConv convMap user_key
    else convMap
  else convMap

/-! ## Concrete records used by individual claims' closed theorems -/

/-- A memory with service and name already collected (used by C4). -/
def convC4 : ConvMem :=
  { created_at := 1000
    updated_at := 1000
    lang := "en"
    history := []
    service := some "haircut"
    name := some "John"
    datetime_iso := none
    time_text := none
    pending := none }

/-- An always-busy calendar client (used by C4). -/
def gcalBusyC4 : GCal := ⟨fun _ _ => Except.ok [(0, 1)], fun _ => Except.error ()⟩

/-- A pending offer of two afternoon slots (used by C2). -/
def offerC2 : PendingOffer :=
  ⟨"2026-03-04T15:00:00+02:00", "2026-03-04T15:30:00+02:00", some "haircut", some "John"⟩

/-- A memory awaiting the 1/2 reply to `offerC2` (used by C2). -/
def convC2 : ConvMem :=
  { created_at := 1000
    updated_at := 1000
    lang := "en"
    history := []
    service := some "haircut"
    name := some "John"
    datetime_iso := some "2026-03-04T10:00:00+02:00"
    time_text := some "2026-03-04 10:00"
    pending := some offerC2 }

/-- A Russian-language memory mid-conversation (used by C9). -/
def convC9 : ConvMem :=
  { created_at := 1000
    updated_at := 1000
    lang := "ru"
    history := []
    service := some "стрижка"
    name := none
    datetime_iso := none
    time_text := none
    pending := none }

/-- A stored memory under the `"unknown"` identity (used by C10's
counterexample). -/
def convC10 : ConvMem :=
  { created_at := 1000
    updated_at := 1000
    lang := "ru"
    history := []
    service := some "стрижка"
    name := some "Ivan"
    datetime_iso := none
    time_text := none
    pending := none }

/-- A stored memory under a real phone identity (used by C10's witness). -/
def convC10w : ConvMem := { convC10 with lang := "en" }

/-- A pending offer for C3's counterexample. -/
def offerC3 : PendingOffer :=
  ⟨"2026-03-04T15:00:00+02:00", "2026-03-04T15:30:00+02:00", some "haircut", some "John"⟩

/-- Memory with a previously stored resolved time and a pending offer
(C3's counterexample). -/
def convC3 : ConvMem :=
  { created_at := 1000
    updated_at := 1000
    lang := "en"
    history := []
    service := some "haircut"
    name := some "John"
    datetime_iso := some "2026-03-04T10:00:00+02:00"
    time_text := some "2026-03-04 10:00"
    pending := some offerC3 }

/-- A concrete library parser recognizing exactly `offerC3`'s first option
(2026-03-04 15:00 local time is minute 29543940 of the embedding's
timeline). -/
def fromIsoC3 : String → Option Int :=
  fun s => if s = "2026-03-04T15:00:00+02:00" then some 29543940 else none

/-- A stored-time memory with no pending offer (C3's witness). -/
def convC3w : ConvMem :=
  { created_at := 1000
    updated_at := 1000
    lang := "en"
    history := []
    service := some "haircut"
    name := some "John"
    datetime_iso := some "2026-03-04T15:00:00+02:00"
    time_text := some "2026-03-04 15:00"
    pending := none }

/-- A memory with service and name collected (C8's witness). -/
def convC8w : ConvMem :=
  { created_at := 1000
    updated_at := 1000
    lang := "en"
    history := []
    service := some "haircut"
    name := some "John"
    datetime_iso := none
    time_text := none
    pending := none }

/-- An always-raising calendar client (C7's witness). -/
def gcalErrC7 : GCal := ⟨fun _ _ => Except.error (), fun _ => Except.error ()⟩

/-- A memory with service and name collected (C7's witness). -/
def convC7w : ConvMem := { convC8w with lang := "en" }

/-- A calendar client busy everywhere except the 09:00 slot of day 0:
the slot search collects exactly one candidate within its bound (C5's
counterexample). -/
def gcalOneFreeC5 : GCal :=
  ⟨fun s _ => if s = 540 then Except.ok [] else Except.ok [(0, 1)],
   fun _ => Except.error ()⟩

/-! ## Helper lemmas -/

theorem dropWhile_head_false (p : Char → Bool) :
    ∀ (l : List Char) (a : Char), (l.dropWhile p).head? = some a → p a = false := by
  intro l
  induction l with
  | nil => intro a h; simp [List.dropWhile] at h
  | cons c rest ih =>
    intro a h
    by_cases hc : p c
    · rw [List.dropWhile_cons_of_pos hc] at h
      exact ih a h
    · rw [List.dropWhile_cons_of_neg hc] at h
      simp at h
      subst h
      simpa using hc

theorem dropWhile_of_head_false (p : Char → Bool) (l : List Char)
    (h : ∀ a, l.head? = some a → p a = false) : l.dropWhile p = l := by
  cases l with
  | nil => rfl
  | cons c rest =>
    have := h c (by rfl)
    simp [List.dropWhile, this]

theorem dropWhile_is_suffix (p : Char → Bool) :
    ∀ l : List Char, ∃ t, l = t ++ l.dropWhile p := by
  intro l
  induction l with
  | nil => exact ⟨[], rfl⟩
  | cons c rest ih =>
    by_cases hc : p c
    · obtain ⟨t, ht⟩ := ih
      exact ⟨c :: t, by simp [List.dropWhile_cons_of_pos hc]; exact ht⟩
    · exact ⟨[], by simp [List.dropWhile_cons_of_neg hc]⟩

theorem head_false_of_append (p : Char → Bool) (m r : List Char)
    (h : ∀ a, (m ++ r).head? = some a → p a = false) :
    ∀ a, m.head? = some a → p a = false := by
  intro a ha
  cases m with
  | nil => simp at ha
  | cons c t =>
    have hc : c = a := by simpa using ha
    subst hc
    exact h c (by simp)

/-- The leading-space-then-strip fact used by the fallback combiner: the
source builds `f"{time_text or ''} {raw}".strip()`, and when `time_text`
is absent this is `(" " ++ strip(raw)).strip() = strip(raw)`. -/
theorem stripL_cons_space_stripL (l : List Char) :
    stripL (' ' :: stripL l) = stripL l := by
  have hz : ∀ a, (l.dropWhile isPySpace).head? = some a → isPySpace a = false :=
    fun a h => dropWhile_head_false isPySpace l a h
  -- stripL l has no leading space: it is a prefix of dropWhile isPySpace l
  obtain ⟨t, ht⟩ := dropWhile_is_suffix isPySpace (l.dropWhile isPySpace).reverse
  have hm : (stripL l) ++ t.reverse = l.dropWhile isPySpace := by
    have := congrArg List.reverse ht
    simpa [stripL, List.reverse_append] using this.symm
  have hmh : ∀ a, (stripL l).head? = some a → isPySpace a = false := by
    apply head_false_of_append isPySpace _ t.reverse
    intro a ha
    rw [hm] at ha
    exact hz a ha
  -- reverse (stripL l) has no leading space either (it is a dropWhile image)
  have hrev : ∀ a, (stripL l).reverse.head? = some a → isPySpace a = false := by
    intro a ha
    have he : (stripL l).reverse =
        ((l.dropWhile isPySpace).reverse).dropWhile isPySpace := by
      simp [stripL]
    rw [he] at ha
    exact dropWhile_head_false isPySpace _ a ha
  have h1 : stripL (' ' :: stripL l) = ((stripL l).reverse.dropWhile isPySpace).reverse := by
    show (((' ' :: stripL l).dropWhile isPySpace).reverse.dropWhile isPySpace).reverse = _
    rw [List.dropWhile_cons_of_pos (by simp [isPySpace])]
    rw [dropWhile_of_head_false isPySpace _ hmh]
  rw [h1, dropWhile_of_head_false isPySpace _ hrev, List.reverse_reverse]

/-- `(" " ++ s.strip()).strip() = s.strip()`. -/
theorem pyStrip_space_pyStrip (s : String) :
    pyStrip (" " ++ pyStrip s) = pyStrip s := by
  show String.mk (stripL (" " ++ String.mk (stripL s.data)).data) = String.mk (stripL s.data)
  have hdata : (" " ++ String.mk (stripL s.data)).data = ' ' :: stripL s.data := rfl
  rw [hdata, stripL_cons_space_stripL]

/-- `pyStrip` is idempotent on its own output, phrased as needed by the
fallback combiner when the extractor supplied no time text. -/
theorem combined_of_no_time_text (msg : String) :
    pyStrip ("" ++ " " ++ pyStrip msg) = pyStrip msg := by
  have : ("" ++ " " ++ pyStrip msg) = (" " ++ pyStrip msg) := by
    cases pyStrip msg with
    | mk d => rfl
  rw [this]
  exact pyStrip_space_pyStrip msg

theorem storeTime_service (o : Option Int) (c : ConvMem) :
    (storeTime o c).service = c.service := by cases o <;> rfl

theorem storeTime_name (o : Option Int) (c : ConvMem) :
    (storeTime o c).name = c.name := by cases o <;> rfl

theorem storeTime_pending (o : Option Int) (c : ConvMem) :
    (storeTime o c).pending = c.pending := by cases o <;> rfl

theorem mergeExtracted_pending (lang msg : String) (data : Extracted) (c : ConvMem) :
    (mergeExtracted lang msg data c).pending = c.pending := rfl

theorem mergeExtracted_datetime_iso (lang msg : String) (data : Extracted) (c : ConvMem) :
    (mergeExtracted lang msg data c).datetime_iso = c.datetime_iso := rfl

theorem mergeExtracted_time_text (lang msg : String) (data : Extracted) (c : ConvMem) :
    (mergeExtracted lang msg data c).time_text = c.time_text := rfl

theorem mergeExtracted_service (lang msg : String) (data : Extracted) (c : ConvMem) :
    (mergeExtracted lang msg data c).service = mergedService lang msg data c := rfl

theorem mergeExtracted_name (lang msg : String) (data : Extracted) (c : ConvMem) :
    (mergeExtracted lang msg data c).name = mergedName data c := rfl

/-- When no offer is pending (or the utterance is not a bare 1/2 reply),
the turn is the normal extraction path. -/
theorem handle_eq_normalTurn (now : Int) (fromIso : String → Option Int)
    (gcal : Option GCal) (er : Except Unit Extracted) (existing : Option ConvMem)
    (text channel lang_hint raw_phone : String)
    (hbr : (convAtTurn now existing (effLangHint lang_hint (turnMsg text))
              (turnMsg text) channel).pending = none
           ∨ (turnMsg text ≠ "1" ∧ turnMsg text ≠ "2")) :
    handle_user_text now fromIso gcal er existing text channel lang_hint raw_phone =
      normalTurn now fromIso gcal er existing text channel lang_hint raw_phone := by
  unfold handle_user_text
  rcases hbr with h | h
  · simp only [h]
  · cases hp : (convAtTurn now existing (effLangHint lang_hint (turnMsg text))
        (turnMsg text) channel).pending with
    | none => simp only [hp]
    | some pending => simp only [hp, h.1, h.2, or_self, if_false]

theorem parseHhmm_start : parseHhmm WORK_START_HHMM = (9, 0) := by decide

theorem parseHhmm_end : parseHhmm WORK_END_HHMM = (18, 0) := by decide

/-- The business-hours check, unfolded at the default configuration. -/
theorem in_business_hours_iff (dt dur : Int) :
    in_business_hours dt dur = true ↔
      (dt / 1440 * 1440 + 540 ≤ dt ∧ dt + dur ≤ dt / 1440 * 1440 + 1080) := by
  simp only [in_business_hours, parseHhmm_start, parseHhmm_end, decide_eq_true_eq]
  norm_num

/-! ## C4 -/

/-- C4: with the default working hours 09:00–18:00 and 30-minute
appointments, a 17:30 start (minute 1050 of its day) is in hours — the
appointment ends exactly at 18:00 — while 17:31 is not; at the handler
level a 17:30 request passes the hours gate and reaches the availability
check (booked when the oracle is absent, recovery when it reports every
slot busy), and a 17:31 request returns `need_more` re-asking for the
time with the `outside_hours` voice phrase. -/
theorem claim4_business_hours_boundary :
    (∀ day : Int, in_business_hours (1440 * day + 1050) 30 = true)
    ∧ (∀ day : Int, in_business_hours (1440 * day + 1051) 30 = false)
    ∧ (handle_user_text 1000 (fun _ => none) none (Except.error ()) (some convC4)
        "17:30" "sms" "en" "+37120000000").status = TurnStatus.booked
    ∧ (handle_user_text 1000 (fun _ => none) (some gcalBusyC4) (Except.error ())
        (some convC4) "17:30" "sms" "en" "+37120000000").status = TurnStatus.recovery
    ∧ ((handle_user_text 1000 (fun _ => none) none (Except.error ()) (some convC4)
        "17:31" "sms" "en" "+37120000000").status = TurnStatus.need_more
      ∧ (handle_user_text 1000 (fun _ => none) none (Except.error ()) (some convC4)
        "17:31" "sms" "en" "+37120000000").voiceKey = "outside_hours"
      ∧ (handle_user_text 1000 (fun _ => none) none (Except.error ()) (some convC4)
        "17:31" "sms" "en" "+37120000000").msgKey = "ask_time") := by
  refine ⟨?_, ?_, by decide, by decide, by decide, by decide, by decide⟩
  · intro day
    rw [in_business_hours_iff]
    have hq : (1440 * day + 1050) / 1440 = day := by omega
    rw [hq]
    omega
  · intro day
    cases hb : in_business_hours (1440 * day + 1051) 30 with
    | false => rfl
    | true =>
      exfalso
      have h := (in_business_hours_iff (1440 * day + 1051) 30).mp hb
      have hq : (1440 * day + 1051) / 1440 = day := by omega
      rw [hq] at h
      omega

/-! ## C10 -/

theorem lookupConv_eraseConv (convMap : List (String × ConvMem)) (key : String) :
    lookupConv (eraseConv convMap key) key = none := by
  induction convMap with
  | nil => rfl
  | cons p rest ih =>
    by_cases h : p.1 = key
    · simpa [eraseConv, List.filter_cons, h] using ih
    · simp only [eraseConv, List.filter_cons, h, decide_False, Bool.not_false,
        if_true, lookupConv] at ih ⊢
      simp only [h, if_false]
      exact ih

theorem norm_user_key_ne_empty (phone : String) : norm_user_key phone ≠ "" := by
  simp only [norm_user_key]
  split
  · decide
  · assumption

/-- C10 (amended): for every allowed voice-call start whose caller
normalizes to an identity other than `"unknown"`, the `/voice/incoming`
handler deletes any conversation memory stored under that identity, so
the call's first turn starts from a fresh record. -/
theorem claim10_voice_reset (caller : String) (convMap : List (String × ConvMem))
    (h : norm_user_key caller ≠ "unknown") :
    lookupConv (voice_incoming_convs true caller convMap) (norm_user_key caller) = none := by
  simp only [voice_incoming_convs, if_true]
  rw [if_pos ⟨norm_user_key_ne_empty caller, h⟩]
  exact lookupConv_eraseConv convMap (norm_user_key caller)

theorem claim10_voice_reset_witness :
    norm_user_key "whatsapp:+37129999999" ≠ "unknown"
    ∧ lookupConv
        (voice_incoming_convs true "whatsapp:+37129999999" [("+37129999999", convC10w)])
        (norm_user_key "whatsapp:+37129999999") = none := by
  exact ⟨by decide, claim10_voice_reset "whatsapp:+37129999999" [("+37129999999", convC10w)] (by decide)⟩

/-- C10 counterexample: a caller identity that normalizes to `"unknown"`
(here an empty caller string) is not reset — a stored conversation under
the `"unknown"` key survives the voice-call start, against the claim's
"every allowed inbound voice-call start". -/
theorem claim10_counterexample :
    norm_user_key "" = "unknown"
    ∧ voice_incoming_convs true "" [("unknown", convC10)] = [("unknown", convC10)]
    ∧ lookupConv (voice_incoming_convs true "" [("unknown", convC10)]) "unknown" =
        some convC10 := by
  refine ⟨by decide, by decide, by decide⟩

/-! ## C2 -/

/-- C2 (code bug): with a pending offer stored, a turn whose utterance
`"15:10"` contains an explicit HH:MM-like time pattern and is not `"1"` or
`"2"` falls through to normal extraction, books the freshly stated time —
and leaves the stale pending offer set in memory after the turn, which the
claim (and spec) say must be cleared. -/
theorem claim2_pending_offer_not_cleared :
    hasTimePattern "15:10" = true
    ∧ (handle_user_text 1000 (fun _ => none) none (Except.error ()) (some convC2)
        "15:10" "sms" "en" "+37120000000").status = TurnStatus.booked
    ∧ (handle_user_text 1000 (fun _ => none) none (Except.error ()) (some convC2)
        "15:10" "sms" "en" "+37120000000").conv.pending = some offerC2 := by
  refine ⟨by decide, by decide, by decide⟩

/-! ## C9 -/

/-- C9 (code bug): an unexpired conversation whose stored language is
`"ru"`, receiving the SMS body `"1"` with no pending offer, has its
language re-detected from the bare digit (`detect_language "1" = "en"`)
and the stored language overwritten to `"en"` — the claim (and spec) say
a 1/2 menu reply must not re-detect and overwrite it. -/
theorem claim9_language_overwritten :
    detect_language "1" = "en"
    ∧ convC9.lang = "ru"
    ∧ conv_expired 1000 convC9 = false
    ∧ (sms_incoming_turn 1000 (fun _ => none) none (Except.error ()) (some convC9)
        "+37120000000" "1").conv.lang = "en"
    ∧ (sms_incoming_turn 1000 (fun _ => none) none (Except.error ()) (some convC9)
        "+37120000000" "1").lang = "en" := by
  refine ⟨by decide, by decide, by decide, by decide, by decide⟩

/-! ## Further helper lemmas on the turn stages -/

theorem storeTime_none (c : ConvMem) : storeTime none c = c := rfl

theorem storeTime_some_datetime_iso (dt : Int) (c : ConvMem) :
    (storeTime (some dt) c).datetime_iso = some (isoformatDT dt) := rfl

theorem storeTime_some_time_text (dt : Int) (c : ConvMem) :
    (storeTime (some dt) c).time_text = some (fmtYmdHm dt) := rfl

theorem fieldGate_conv_datetime_iso (g : Option GCal) (dtO : Option Int) (c : ConvMem)
    (msg channel raw_phone lang : String) (data : Extracted) :
    (fieldGate g dtO c msg channel raw_phone lang data).conv.datetime_iso =
      c.datetime_iso := by
  simp only [fieldGate, availabilityStage, bookStage, needMoreOut]
  repeat' split
  all_goals rfl

theorem fieldGate_conv_time_text (g : Option GCal) (dtO : Option Int) (c : ConvMem)
    (msg channel raw_phone lang : String) (data : Extracted) :
    (fieldGate g dtO c msg channel raw_phone lang data).conv.time_text =
      c.time_text := by
  simp only [fieldGate, availabilityStage, bookStage, needMoreOut]
  repeat' split
  all_goals rfl

theorem convAtTurn_fields_unexpired (now : Int) (c0 : ConvMem) (lh msg channel : String)
    (hux : conv_expired now c0 = false) :
    (convAtTurn now (some c0) lh msg channel).datetime_iso = c0.datetime_iso
    ∧ (convAtTurn now (some c0) lh msg channel).time_text = c0.time_text
    ∧ (convAtTurn now (some c0) lh msg channel).pending = c0.pending
    ∧ (convAtTurn now (some c0) lh msg channel).service = c0.service
    ∧ (convAtTurn now (some c0) lh msg channel).name = c0.name := by
  simp only [convAtTurn, get_conv, hux, Bool.false_eq_true, if_false]
  split <;> exact ⟨rfl, rfl, rfl, rfl, rfl⟩

theorem turnMerged_datetime_iso (now : Int) (er : Except Unit Extracted)
    (existing : Option ConvMem) (text channel lang_hint : String) :
    (turnMerged now er existing text channel lang_hint).datetime_iso =
      (convAtTurn now existing (effLangHint lang_hint (turnMsg text)) (turnMsg text)
        channel).datetime_iso := by
  simp only [turnMerged, mergeExtracted_datetime_iso]
  split <;> rfl

theorem turnMerged_time_text (now : Int) (er : Except Unit Extracted)
    (existing : Option ConvMem) (text channel lang_hint : String) :
    (turnMerged now er existing text channel lang_hint).time_text =
      (convAtTurn now existing (effLangHint lang_hint (turnMsg text)) (turnMsg text)
        channel).time_text := by
  simp only [turnMerged, mergeExtracted_time_text]
  split <;> rfl

/-- This turn's resolution fails when the extractor offered nothing and
the utterance carries no HH:MM-like pattern. -/
theorem turnDt_none_of_no_pattern (now : Int) (fromIso : String → Option Int)
    (er : Except Unit Extracted) (text : String)
    (hiso : (dataOf er).datetime_iso = none)
    (htt : (dataOf er).time_text = none)
    (hpat : hasTimePattern (turnMsg text) = false) :
    turnDt now fromIso er text = none := by
  have h1 : turnDt now fromIso er text =
      parse_time_text_to_dt (now / 1440) (pyStrip ("" ++ " " ++ turnMsg text)) := by
    unfold turnDt
    rw [hiso, htt]
    rfl
  have h2 : ("" ++ " " ++ turnMsg text) = (" " ++ pyStrip text) := rfl
  rw [h1, h2, pyStrip_space_pyStrip text]
  by_cases hz : pyStrip text = ""
  · rw [hz]
    rfl
  · have hnone : timeSearch none (pyLowerStr (pyStrip text)).data = none := by
      rcases hsearch : timeSearch none (pyLowerStr (pyStrip text)).data with _ | v
      · rfl
      · exfalso
        have ht : hasTimePattern (turnMsg text) = true := by
          unfold hasTimePattern turnMsg
          rw [hsearch]
          rfl
        rw [hpat] at ht
        exact Bool.false_ne_true ht
    simp only [parse_time_text_to_dt, hz, if_false, hnone]

/-- A bare `"1"`/`"2"` with an all-null extraction resolves no time. -/
theorem turnDt_none_of_digit (now : Int) (fromIso : String → Option Int)
    (er : Except Unit Extracted) (text : String)
    (hnull : dataOf er = allNull)
    (hmsg : turnMsg text = "1" ∨ turnMsg text = "2") :
    turnDt now fromIso er text = none := by
  have h1 : turnDt now fromIso er text =
      parse_time_text_to_dt (now / 1440) (pyStrip ("" ++ " " ++ turnMsg text)) := by
    unfold turnDt
    rw [hnull]
    rfl
  rcases hmsg with h | h <;> rw [h1, h] <;> rfl

/-! ## C1 -/

/-- C1: on every turn that is not a 1/2 reply to a pending offer, the
required-field checks run in the fixed order service → time → name →
business-hours, exactly one prompt key is returned for the turn, and it is
the key of the highest-priority missing field: a missing service asks for
the service regardless of the other fields; with a service, an unresolved
time asks for the time; with service and time, a missing name asks for the
name; with all three, an out-of-hours time re-asks for the time.  (A turn
answering a pending offer with a bare 1/2 does not evaluate the chain; in
states the machine itself produces, a pending offer implies service and
name are already present.) -/
theorem claim1_prompt_priority
    (now : Int) (fromIso : String → Option Int) (gcal : Option GCal)
    (er : Except Unit Extracted) (existing : Option ConvMem)
    (text channel lang_hint raw_phone : String)
    (hbr : (convAtTurn now existing (effLangHint lang_hint (turnMsg text))
              (turnMsg text) channel).pending = none
           ∨ (turnMsg text ≠ "1" ∧ turnMsg text ≠ "2")) :
    (truthyO (turnMerged now er existing text channel lang_hint).service = false →
        (handle_user_text now fromIso gcal er existing text channel lang_hint raw_phone).status = TurnStatus.need_more
      ∧ (handle_user_text now fromIso gcal er existing text channel lang_hint raw_phone).voiceKey = "need_service"
      ∧ (handle_user_text now fromIso gcal er existing text channel lang_hint raw_phone).msgKey = "ask_service")
    ∧ (truthyO (turnMerged now er existing text channel lang_hint).service = true →
       turnDt now fromIso er text = none →
        (handle_user_text now fromIso gcal er existing text channel lang_hint raw_phone).status = TurnStatus.need_more
      ∧ (handle_user_text now fromIso gcal er existing text channel lang_hint raw_phone).voiceKey = "need_time"
      ∧ (handle_user_text now fromIso gcal er existing text channel lang_hint raw_phone).msgKey = "ask_time")
    ∧ (∀ dt : Int,
       truthyO (turnMerged now er existing text channel lang_hint).service = true →
       turnDt now fromIso er text = some dt →
       truthyO (turnMerged now er existing text channel lang_hint).name = false →
        (handle_user_text now fromIso gcal er existing text channel lang_hint raw_phone).status = TurnStatus.need_more
      ∧ (handle_user_text now fromIso gcal er existing text channel lang_hint raw_phone).voiceKey = "need_name"
      ∧ (handle_user_text now fromIso gcal er existing text channel lang_hint raw_phone).msgKey = "ask_name")
    ∧ (∀ dt : Int,
       truthyO (turnMerged now er existing text channel lang_hint).service = true →
       turnDt now fromIso er text = some dt →
       truthyO (turnMerged now er existing text channel lang_hint).name = true →
       in_business_hours dt APPT_MINUTES = false →
        (handle_user_text now fromIso gcal er existing text channel lang_hint raw_phone).status = TurnStatus.need_more
      ∧ (handle_user_text now fromIso gcal er existing text channel lang_hint raw_phone).voiceKey = "outside_hours"
      ∧ (handle_user_text now fromIso gcal er existing text channel lang_hint raw_phone).msgKey = "ask_time") := by
  have he := handle_eq_normalTurn now fromIso gcal er existing text channel lang_hint
    raw_phone hbr
  rw [he]
  refine ⟨?_, ?_, ?_, ?_⟩
  · intro h
    simp only [normalTurn, fieldGate, storeTime_service, h, Bool.false_eq_true,
      if_false, needMoreOut]
    exact ⟨trivial, trivial, trivial⟩
  · intro h1 h2
    simp only [normalTurn, fieldGate, storeTime_service, h1, h2, if_true, needMoreOut]
    exact ⟨trivial, trivial, trivial⟩
  · intro dt h1 h2 h3
    simp only [normalTurn, fieldGate, storeTime_service, storeTime_name, h1, h2, h3,
      Bool.false_eq_true, if_true, if_false, needMoreOut]
    exact ⟨trivial, trivial, trivial⟩
  · intro dt h1 h2 h3 h4
    simp only [normalTurn, fieldGate, storeTime_service, storeTime_name, h1, h2, h3, h4,
      Bool.false_eq_true, if_true, if_false, needMoreOut]
    exact ⟨trivial, trivial, trivial⟩

theorem claim1_prompt_priority_witness :
    (turnMsg "haircut please" ≠ "1" ∧ turnMsg "haircut please" ≠ "2")
    ∧ truthyO (turnMerged 1000 (Except.error ()) none "haircut please" "sms" "en").service = false
    ∧ (handle_user_text 1000 (fun _ => none) none (Except.error ()) none
        "haircut please" "sms" "en" "+37120000000").status = TurnStatus.need_more
    ∧ (handle_user_text 1000 (fun _ => none) none (Except.error ()) none
        "haircut please" "sms" "en" "+37120000000").voiceKey = "need_service"
    ∧ (handle_user_text 1000 (fun _ => none) none (Except.error ()) none
        "haircut please" "sms" "en" "+37120000000").msgKey = "ask_service" := by
  have h := (claim1_prompt_priority 1000 (fun _ => none) none (Except.error ()) none
    "haircut please" "sms" "en" "+37120000000" (Or.inr (by decide))).1 (by decide)
  exact ⟨by decide, by decide, h.1, h.2.1, h.2.2⟩

/-! ## C8 -/

/-- C8: a turn whose utterance is exactly `"1"` or `"2"` while no offer is
pending is processed as ordinary text through the normal extraction path;
with the extraction degraded to all-nulls (the digit alone carries no
fields), the turn resolves no time, returns `need_more`, never returns
`booked`, and performs no calendar-event creation. -/
theorem claim8_digit_without_pending
    (now : Int) (fromIso : String → Option Int) (gcal : Option GCal)
    (er : Except Unit Extracted) (existing : Option ConvMem)
    (text channel lang_hint raw_phone : String)
    (hpend : (convAtTurn now existing (effLangHint lang_hint (turnMsg text))
                (turnMsg text) channel).pending = none)
    (hmsg : turnMsg text = "1" ∨ turnMsg text = "2")
    (hnull : dataOf er = allNull) :
    handle_user_text now fromIso gcal er existing text channel lang_hint raw_phone =
      normalTurn now fromIso gcal er existing text channel lang_hint raw_phone
    ∧ (handle_user_text now fromIso gcal er existing text channel lang_hint raw_phone).status = TurnStatus.need_more
    ∧ (handle_user_text now fromIso gcal er existing text channel lang_hint raw_phone).events = [] := by
  have he := handle_eq_normalTurn now fromIso gcal er existing text channel lang_hint
    raw_phone (Or.inl hpend)
  have hdt := turnDt_none_of_digit now fromIso er text hnull hmsg
  refine ⟨he, ?_, ?_⟩
  · rw [he]
    simp only [normalTurn, fieldGate, hdt, storeTime_service]
    split <;> rfl
  · rw [he]
    simp only [normalTurn, fieldGate, hdt, storeTime_service]
    split <;> rfl

theorem claim8_digit_without_pending_witness :
    (convAtTurn 1000 (some convC8w) (effLangHint "en" (turnMsg "1")) (turnMsg "1")
        "sms").pending = none
    ∧ (turnMsg "1" = "1" ∨ turnMsg "1" = "2")
    ∧ dataOf (Except.error ()) = allNull
    ∧ (handle_user_text 1000 (fun _ => none) none (Except.error ()) (some convC8w)
        "1" "sms" "en" "+37120000000").status = TurnStatus.need_more
    ∧ (handle_user_text 1000 (fun _ => none) none (Except.error ()) (some convC8w)
        "1" "sms" "en" "+37120000000").events = [] := by
  have h := claim8_digit_without_pending 1000 (fun _ => none) none (Except.error ())
    (some convC8w) "1" "sms" "en" "+37120000000" (by decide) (Or.inl (by decide))
    (by decide)
  exact ⟨by decide, Or.inl (by decide), by decide, h.2.1, h.2.2⟩

/-! ## C3 -/

/-- C3 (amended): for an unexpired conversation holding a stored resolved
time, a non-offer-choice turn whose utterance has no time-bearing pattern
and whose extractor returned neither an ISO time nor a time text leaves
the stored `datetime_iso`/`time_text` unchanged, and a turn that resolves
a fresh timestamp overwrites both with the new value.  (The exception the
counterexample forces: a turn that is a bare `"1"`/`"2"` answering a
pending offer books the chosen option and stores its time.) -/
theorem claim3_time_freshness
    (now : Int) (fromIso : String → Option Int) (gcal : Option GCal)
    (er : Except Unit Extracted) (c0 : ConvMem)
    (text channel lang_hint raw_phone : String)
    (hux : conv_expired now c0 = false)
    (hbr : (convAtTurn now (some c0) (effLangHint lang_hint (turnMsg text))
              (turnMsg text) channel).pending = none
           ∨ (turnMsg text ≠ "1" ∧ turnMsg text ≠ "2")) :
    ((dataOf er).datetime_iso = none → (dataOf er).time_text = none →
     hasTimePattern (turnMsg text) = false →
        (handle_user_text now fromIso gcal er (some c0) text channel lang_hint raw_phone).conv.datetime_iso = c0.datetime_iso
      ∧ (handle_user_text now fromIso gcal er (some c0) text channel lang_hint raw_phone).conv.time_text = c0.time_text)
    ∧ (∀ dt : Int, turnDt now fromIso er text = some dt →
        (handle_user_text now fromIso gcal er (some c0) text channel lang_hint raw_phone).conv.datetime_iso = some (isoformatDT dt)
      ∧ (handle_user_text now fromIso gcal er (some c0) text channel lang_hint raw_phone).conv.time_text = some (fmtYmdHm dt)) := by
  have he := handle_eq_normalTurn now fromIso gcal er (some c0) text channel lang_hint
    raw_phone hbr
  rw [he]
  constructor
  · intro hiso htt hpat
    have hdt := turnDt_none_of_no_pattern now fromIso er text hiso htt hpat
    constructor
    · simp only [normalTurn, fieldGate_conv_datetime_iso, hdt, storeTime_none]
      rw [turnMerged_datetime_iso]
      exact (convAtTurn_fields_unexpired now c0 _ _ _ hux).1
    · simp only [normalTurn, fieldGate_conv_time_text, hdt, storeTime_none]
      rw [turnMerged_time_text]
      exact (convAtTurn_fields_unexpired now c0 _ _ _ hux).2.1
  · intro dt hdt
    constructor
    · simp only [normalTurn, fieldGate_conv_datetime_iso, hdt,
        storeTime_some_datetime_iso]
    · simp only [normalTurn, fieldGate_conv_time_text, hdt, storeTime_some_time_text]

theorem claim3_time_freshness_witness :
    conv_expired 1000 convC3w = false
    ∧ (turnMsg "thanks" ≠ "1" ∧ turnMsg "thanks" ≠ "2")
    ∧ (dataOf (Except.error ())).datetime_iso = none
    ∧ (dataOf (Except.error ())).time_text = none
    ∧ hasTimePattern (turnMsg "thanks") = false
    ∧ (handle_user_text 1000 (fun _ => none) none (Except.error ()) (some convC3w)
        "thanks" "sms" "en" "+37120000000").conv.datetime_iso = convC3w.datetime_iso
    ∧ (handle_user_text 1000 (fun _ => none) none (Except.error ()) (some convC3w)
        "thanks" "sms" "en" "+37120000000").conv.time_text = convC3w.time_text := by
  have h := (claim3_time_freshness 1000 (fun _ => none) none (Except.error ()) convC3w
    "thanks" "sms" "en" "+37120000000" (by decide) (Or.inr (by decide))).1
    (by decide) (by decide) (by decide)
  exact ⟨by decide, by decide, by decide, by decide, by decide, h.1, h.2⟩

/-- C3 counterexample: the claim as stated fails on a turn that answers a
pending offer with a bare `"1"`: the utterance carries no time-bearing
pattern and the extractor is not even consulted, yet the stored resolved
time is overwritten with the chosen option's time. -/
theorem claim3_counterexample :
    hasTimePattern "1" = false
    ∧ dataOf (Except.error ()) = allNull
    ∧ (handle_user_text 1000 fromIsoC3 none (Except.error ()) (some convC3)
        "1" "sms" "en" "+37120000000").conv.datetime_iso ≠ convC3.datetime_iso
    ∧ (handle_user_text 1000 fromIsoC3 none (Except.error ()) (some convC3)
        "1" "sms" "en" "+37120000000").conv.datetime_iso =
          some "2026-03-04T15:00:00+02:00"
    ∧ (handle_user_text 1000 fromIsoC3 none (Except.error ()) (some convC3)
        "1" "sms" "en" "+37120000000").status = TurnStatus.booked := by
  refine ⟨by decide, by decide, by decide, by decide, by decide⟩

/-! ## C6 -/

/-- The pattern-extraction fallback never resolves without the HH:MM-like
time-of-day pattern. -/
theorem parse_time_text_none_of_no_pattern (today : Int) (s : String)
    (hpat : hasTimePattern s = false) : parse_time_text_to_dt today s = none := by
  by_cases hz : s = ""
  · rw [hz]
    rfl
  · have hnone : timeSearch none (pyLowerStr s).data = none := by
      rcases hsearch : timeSearch none (pyLowerStr s).data with _ | v
      · rfl
      · exfalso
        have ht : hasTimePattern s = true := by
          unfold hasTimePattern
          rw [hsearch]
          rfl
        rw [hpat] at ht
        exact Bool.false_ne_true ht
    simp only [parse_time_text_to_dt, hz, if_false, hnone]

/-- A rejected ISO value falls through to the pattern fallback. -/
theorem parse_dt_fallback_of_iso_none (fromIso : String → Option Int) (today : Int)
    (diso tt : Option String) (raw : String)
    (h : fromIso (pyStrip (diso.getD "")) = none) :
    parse_dt_from_iso_or_fallback fromIso today diso tt raw =
      parse_time_text_to_dt today (pyStrip ((tt.getD "") ++ " " ++ raw)) := by
  simp only [parse_dt_from_iso_or_fallback]
  by_cases hz : pyStrip (diso.getD "") = ""
  · simp [hz]
  · simp [hz, h]

/-- C6: time resolution returns unset whenever the model-suggested ISO
string is absent (empty after stripping) or rejected by the library
parser, and the combined free time text plus raw utterance contains no
time-of-day pattern (hour 0–23, minute 00–59, separated by `:`, `.` or a
space); a malformed ISO value is treated as absent, falling through to
pattern extraction over the combined text rather than failing; and the
fallback itself never resolves any text without the time-of-day pattern —
a date expression alone is never enough. -/
theorem claim6_resolution_requires_time_pattern :
    (∀ (fromIso : String → Option Int) (today : Int) (diso tt : Option String)
        (raw : String),
      (pyStrip (diso.getD "") = "" ∨ fromIso (pyStrip (diso.getD "")) = none) →
      hasTimePattern (pyStrip ((tt.getD "") ++ " " ++ raw)) = false →
      parse_dt_from_iso_or_fallback fromIso today diso tt raw = none)
    ∧ (∀ (fromIso : String → Option Int) (today : Int) (diso tt : Option String)
        (raw : String),
      fromIso (pyStrip (diso.getD "")) = none →
      parse_dt_from_iso_or_fallback fromIso today diso tt raw =
        parse_time_text_to_dt today (pyStrip ((tt.getD "") ++ " " ++ raw)))
    ∧ (∀ (today : Int) (s : String), hasTimePattern s = false →
        parse_time_text_to_dt today s = none) := by
  refine ⟨?_, parse_dt_fallback_of_iso_none, parse_time_text_none_of_no_pattern⟩
  intro fromIso today diso tt raw h hpat
  rcases h with h | h
  · have he : parse_dt_from_iso_or_fallback fromIso today diso tt raw =
        parse_time_text_to_dt today (pyStrip ((tt.getD "") ++ " " ++ raw)) := by
      simp only [parse_dt_from_iso_or_fallback, h]
      simp
    rw [he]
    exact parse_time_text_none_of_no_pattern today _ hpat
  · rw [parse_dt_fallback_of_iso_none fromIso today diso tt raw h]
    exact parse_time_text_none_of_no_pattern today _ hpat

theorem claim6_resolution_requires_time_pattern_witness :
    ((fun _ => (none : Option Int)) (pyStrip ((some "not-a-timestamp").getD "")) = none)
    ∧ hasTimePattern (pyStrip (((none : Option String).getD "") ++ " " ++ "see you tomorrow")) = false
    ∧ parse_dt_from_iso_or_fallback (fun _ => none) 20516 (some "not-a-timestamp")
        none "see you tomorrow" = none := by
  refine ⟨rfl, by decide, ?_⟩
  exact claim6_resolution_requires_time_pattern.1 (fun _ => none) 20516
    (some "not-a-timestamp") none "see you tomorrow" (Or.inr rfl) (by decide)

/-! ## C5 -/

theorem findSlotsAux_eq_listToPair (g : Option GCal) (dur : Int) :
    ∀ (n : Nat) (cand : Int) (found : List Int), found.length ≤ 1 →
      findSlotsAux g dur n cand found = listToPair (collectSlotsAux g dur n cand found) := by
  intro n
  induction n with
  | zero =>
    intro cand found h
    rcases found with _ | ⟨a, _ | ⟨b, t⟩⟩
    · rfl
    · rfl
    · simp at h
  | succ n ih =>
    intro cand found h
    by_cases hbh : in_business_hours cand dur = true
    · by_cases hbs : is_slot_busy g cand (cand + dur) = true
      · simp only [findSlotsAux, collectSlotsAux, hbh, hbs, if_true]
        exact ih _ _ h
      · have hbs' : is_slot_busy g cand (cand + dur) = false :=
          Bool.not_eq_true _ ▸ Bool.of_not_eq_true hbs
        rcases found with _ | ⟨a, _ | ⟨b, t⟩⟩
        · simp only [findSlotsAux, collectSlotsAux, hbh, hbs', if_true,
            Bool.false_eq_true, if_false, List.nil_append, List.length_cons,
            List.length_nil]
          norm_num
          exact ih _ _ (by simp)
        · simp only [findSlotsAux, collectSlotsAux, hbh, hbs', if_true,
            Bool.false_eq_true, if_false, List.cons_append, List.nil_append,
            List.length_cons, List.length_nil, listToPair]
        · simp at h
    · have hbh' : in_business_hours cand dur = false :=
        Bool.not_eq_true _ ▸ Bool.of_not_eq_true hbh
      simp only [findSlotsAux, collectSlotsAux, hbh', Bool.false_eq_true, if_false]
      exact ih _ _ h

theorem findSlotsAux_sound_one (g : Option GCal) (dur : Int) :
    ∀ (n : Nat) (cand f a b : Int),
      findSlotsAux g dur n cand [f] = some (a, b) →
      a = f ∧ in_business_hours b dur = true ∧ is_slot_busy g b (b + dur) = false ∧
        ∃ j : Nat, j < n ∧ b = cand + 30 * (j : Int) := by
  intro n
  induction n with
  | zero =>
    intro cand f a b h
    exact absurd h (by simp [findSlotsAux])
  | succ n ih =>
    intro cand f a b h
    by_cases hbh : in_business_hours cand dur = true
    · by_cases hbs : is_slot_busy g cand (cand + dur) = true
      · simp only [findSlotsAux, hbh, hbs, if_true] at h
        obtain ⟨ha, h2, h3, j, hj, hbe⟩ := ih _ _ _ _ h
        refine ⟨ha, h2, h3, j + 1, by omega, ?_⟩
        rw [hbe]
        push_cast
        ring
      · have hbs' : is_slot_busy g cand (cand + dur) = false :=
          Bool.not_eq_true _ ▸ Bool.of_not_eq_true hbs
        simp only [findSlotsAux, hbh, hbs', if_true, Bool.false_eq_true, if_false,
          List.cons_append, List.nil_append, List.length_cons, List.length_nil] at h
        norm_num at h
        obtain ⟨h1, h2⟩ := h
        subst h1
        subst h2
        exact ⟨rfl, hbh, hbs', 0, Nat.succ_pos n, by push_cast; ring⟩
    · have hbh' : in_business_hours cand dur = false :=
        Bool.not_eq_true _ ▸ Bool.of_not_eq_true hbh
      simp only [findSlotsAux, hbh', Bool.false_eq_true, if_false] at h
      obtain ⟨ha, h2, h3, j, hj, hbe⟩ := ih _ _ _ _ h
      refine ⟨ha, h2, h3, j + 1, by omega, ?_⟩
      rw [hbe]
      push_cast
      ring

theorem findSlotsAux_sound_nil (g : Option GCal) (dur : Int) :
    ∀ (n : Nat) (cand a b : Int),
      findSlotsAux g dur n cand [] = some (a, b) →
      in_business_hours a dur = true ∧ is_slot_busy g a (a + dur) = false ∧
      in_business_hours b dur = true ∧ is_slot_busy g b (b + dur) = false ∧
      ∃ i j : Nat, i < j ∧ j < n ∧ a = cand + 30 * (i : Int) ∧
        b = cand + 30 * (j : Int) := by
  intro n
  induction n with
  | zero =>
    intro cand a b h
    exact absurd h (by simp [findSlotsAux])
  | succ n ih =>
    intro cand a b h
    by_cases hbh : in_business_hours cand dur = true
    · by_cases hbs : is_slot_busy g cand (cand + dur) = true
      · simp only [findSlotsAux, hbh, hbs, if_true] at h
        obtain ⟨h1, h2, h3, h4, i, j, hij, hj, ha, hb⟩ := ih _ _ _ h
        refine ⟨h1, h2, h3, h4, i + 1, j + 1, by omega, by omega, ?_, ?_⟩
        · rw [ha]; push_cast; ring
        · rw [hb]; push_cast; ring
      · have hbs' : is_slot_busy g cand (cand + dur) = false :=
          Bool.not_eq_true _ ▸ Bool.of_not_eq_true hbs
        simp only [findSlotsAux, hbh, hbs', if_true, Bool.false_eq_true, if_false,
          List.nil_append, List.length_cons, List.length_nil] at h
        norm_num at h
        obtain ⟨ha, h2, h3, j, hj, hbe⟩ := findSlotsAux_sound_one g dur n _ _ _ _ h
        subst ha
        refine ⟨hbh, hbs', h2, h3, 0, j + 1, by omega, by omega, by push_cast; ring, ?_⟩
        rw [hbe]
        push_cast
        ring
    · have hbh' : in_business_hours cand dur = false :=
        Bool.not_eq_true _ ▸ Bool.of_not_eq_true hbh
      simp only [findSlotsAux, hbh', Bool.false_eq_true, if_false] at h
      obtain ⟨h1, h2, h3, h4, i, j, hij, hj, ha, hb⟩ := ih _ _ _ h
      refine ⟨h1, h2, h3, h4, i + 1, j + 1, by omega, by omega, ?_, ?_⟩
      · rw [ha]; push_cast; ring
      · rw [hb]; push_cast; ring

/-- C5 (amended): the slot search is a total, deterministic function that
never raises; it returns a result exactly when two candidates were
collected within the 48-iteration bound, returning those two — a single
collected candidate is discarded (the search then returns none, exactly as
if nothing had been collected); a returned pair is in chronological order,
both slots lie on the fixed 30-minute grid stepped from the desired start,
and each is in business hours and reported not busy. -/
theorem claim5_slot_search (g : Option GCal) (x dur : Int) :
    find_next_two_slots g x dur = listToPair (collectedSlots g x dur)
    ∧ (∀ a b : Int, find_next_two_slots g x dur = some (a, b) →
        a < b ∧ in_business_hours a dur = true ∧ in_business_hours b dur = true ∧
        is_slot_busy g a (a + dur) = false ∧ is_slot_busy g b (b + dur) = false ∧
        ∃ i j : Nat, i < j ∧ j < 48 ∧ a = x + 30 * (i : Int) ∧
          b = x + 30 * (j : Int)) := by
  constructor
  · exact findSlotsAux_eq_listToPair g dur 48 x [] (by simp)
  · intro a b h
    obtain ⟨h1, h2, h3, h4, i, j, hij, hj, ha, hb⟩ :=
      findSlotsAux_sound_nil g dur 48 x a b h
    refine ⟨by omega, h1, h3, h2, h4, i, j, hij, hj, ha, hb⟩

theorem claim5_slot_search_witness :
    find_next_two_slots none 540 30 = some (540, 570)
    ∧ (540 : Int) < 570 := by
  refine ⟨by decide, ?_⟩
  exact ((claim5_slot_search none 540 30).2 540 570 (by decide)).1

/-- C5 counterexample: with a busy predicate leaving exactly one free
in-hours slot within the bound, the search collects exactly one candidate
but returns none rather than that candidate, refuting "returns exactly the
candidates it collected — zero, one, or two of them". -/
theorem claim5_counterexample :
    collectedSlots (some gcalOneFreeC5) 540 30 = [540]
    ∧ find_next_two_slots (some gcalOneFreeC5) 540 30 = none := by
  refine ⟨by decide, by decide⟩

/-! ## C7 -/

theorem offerChoiceTurn_status (fromIso : String → Option Int) (c : ConvMem)
    (pending : PendingOffer) (msg channel raw_phone lang : String) :
    (offerChoiceTurn fromIso c pending msg channel raw_phone lang).status = TurnStatus.need_more
    ∨ (offerChoiceTurn fromIso c pending msg channel raw_phone lang).status = TurnStatus.booked := by
  simp only [offerChoiceTurn]
  cases fromIso (if msg = "1" then pending.opt1_iso else pending.opt2_iso) with
  | none => exact Or.inl rfl
  | some dt => exact Or.inr rfl

theorem fieldGate_gcal_none_status (dtO : Option Int) (c : ConvMem)
    (msg channel raw_phone lang : String) (data : Extracted) :
    (fieldGate none dtO c msg channel raw_phone lang data).status = TurnStatus.need_more
    ∨ (fieldGate none dtO c msg channel raw_phone lang data).status = TurnStatus.booked := by
  simp only [fieldGate, availabilityStage, is_slot_busy, Bool.false_eq_true, if_false]
  by_cases h1 : truthyO c.service = true
  · simp only [h1, if_true]
    cases dtO with
    | none => exact Or.inl rfl
    | some dt =>
      by_cases h3 : truthyO c.name = true
      · by_cases h4 : in_business_hours dt APPT_MINUTES = true
        · simp only [h3, h4, if_true]
          exact Or.inr rfl
        · have h4' : in_business_hours dt APPT_MINUTES = false :=
            Bool.not_eq_true _ ▸ Bool.of_not_eq_true h4
          simp only [h3, h4', if_true, Bool.false_eq_true, if_false]
          exact Or.inl rfl
      · have h3' : truthyO c.name = false :=
          Bool.not_eq_true _ ▸ Bool.of_not_eq_true h3
        simp only [h3', Bool.false_eq_true, if_false]
        exact Or.inl rfl
  · have h1' : truthyO c.service = false :=
      Bool.not_eq_true _ ▸ Bool.of_not_eq_true h1
    simp only [h1', Bool.false_eq_true, if_false]
    exact Or.inl rfl

theorem handle_gcal_none_status (now : Int) (fromIso : String → Option Int)
    (er : Except Unit Extracted) (existing : Option ConvMem)
    (text channel lang_hint raw_phone : String) :
    (handle_user_text now fromIso none er existing text channel lang_hint raw_phone).status = TurnStatus.need_more
    ∨ (handle_user_text now fromIso none er existing text channel lang_hint raw_phone).status = TurnStatus.booked := by
  simp only [handle_user_text]
  cases hp : (convAtTurn now existing (effLangHint lang_hint (turnMsg text))
      (turnMsg text) channel).pending with
  | none =>
    simp only [normalTurn]
    exact fieldGate_gcal_none_status _ _ _ _ _ _ _
  | some pending =>
    by_cases hm : turnMsg text = "1" ∨ turnMsg text = "2"
    · simp only [hm, if_true]
      exact offerChoiceTurn_status _ _ _ _ _ _ _
    · simp only [hm, if_false, normalTurn]
      exact fieldGate_gcal_none_status _ _ _ _ _ _ _

/-- C7: an unconfigured Availability Oracle reports every interval not
busy, and a raised free/busy query does the same (fail open); hence with
no calendar client a turn can never produce the busy-offer or recovery
results, and a normal-path turn with service, name, and an in-hours
resolved time books directly — no alternatives are offered. -/
theorem claim7_fail_open_oracle :
    (∀ s e : Int, is_slot_busy none s e = false)
    ∧ (∀ (gc : GCal) (s e : Int), gc.freebusy s e = Except.error () →
        is_slot_busy (some gc) s e = false)
    ∧ (∀ (now : Int) (fromIso : String → Option Int) (er : Except Unit Extracted)
        (existing : Option ConvMem) (text channel lang_hint raw_phone : String),
        (handle_user_text now fromIso none er existing text channel lang_hint raw_phone).status ≠ TurnStatus.busy
      ∧ (handle_user_text now fromIso none er existing text channel lang_hint raw_phone).status ≠ TurnStatus.recovery)
    ∧ (∀ (now : Int) (fromIso : String → Option Int) (er : Except Unit Extracted)
        (existing : Option ConvMem) (text channel lang_hint raw_phone : String)
        (dt : Int),
        ((convAtTurn now existing (effLangHint lang_hint (turnMsg text))
            (turnMsg text) channel).pending = none
          ∨ (turnMsg text ≠ "1" ∧ turnMsg text ≠ "2")) →
        truthyO (turnMerged now er existing text channel lang_hint).service = true →
        turnDt now fromIso er text = some dt →
        truthyO (turnMerged now er existing text channel lang_hint).name = true →
        in_business_hours dt APPT_MINUTES = true →
        (handle_user_text now fromIso none er existing text channel lang_hint raw_phone).status = TurnStatus.booked) := by
  refine ⟨fun s e => rfl, ?_, ?_, ?_⟩
  · intro gc s e h
    simp only [is_slot_busy, h]
  · intro now fromIso er existing text channel lang_hint raw_phone
    rcases handle_gcal_none_status now fromIso er existing text channel lang_hint
      raw_phone with h | h <;> rw [h] <;> exact ⟨by decide, by decide⟩
  · intro now fromIso er existing text channel lang_hint raw_phone dt hbr h1 h2 h3 h4
    have he := handle_eq_normalTurn now fromIso none er existing text channel lang_hint
      raw_phone hbr
    rw [he]
    simp only [normalTurn, fieldGate, storeTime_service, storeTime_name, h1, h2, h3, h4,
      if_true, availabilityStage, is_slot_busy, Bool.false_eq_true, if_false, bookStage]

theorem claim7_fail_open_oracle_witness :
    gcalErrC7.freebusy 0 30 = Except.error ()
    ∧ is_slot_busy (some gcalErrC7) 0 30 = false
    ∧ (convAtTurn 1000 (some convC7w) (effLangHint "en" (turnMsg "15:00"))
        (turnMsg "15:00") "sms").pending = none
    ∧ truthyO (turnMerged 1000 (Except.error ()) (some convC7w) "15:00" "sms" "en").service = true
    ∧ turnDt 1000 (fun _ => none) (Except.error ()) "15:00" = some 900
    ∧ truthyO (turnMerged 1000 (Except.error ()) (some convC7w) "15:00" "sms" "en").name = true
    ∧ in_business_hours 900 APPT_MINUTES = true
    ∧ (handle_user_text 1000 (fun _ => none) none (Except.error ()) (some convC7w)
        "15:00" "sms" "en" "+37120000000").status = TurnStatus.booked := by
  refine ⟨rfl, claim7_fail_open_oracle.2.1 gcalErrC7 0 30 rfl, by decide, by decide,
    by decide, by decide, by decide, ?_⟩
  exact claim7_fail_open_oracle.2.2.2 1000 (fun _ => none) (Except.error ())
    (some convC7w) "15:00" "sms" "en" "+37120000000" 900 (Or.inl (by decide))
    (by decide) (by decide) (by decide) (by decide)
